import Mathlib

/-!
Shallow embedding of the GrantHunter opportunity-extraction pipeline
(`scripts/update-funding.mjs`) and proofs about its specified behaviour.

JavaScript strings are modelled as Lean `String` (a list of characters; the
UTF-16 code-unit length of JS is approximated by character count), JS `null`
for optional string fields as `Option String`, and JS numbers in the date
arithmetic as `Int` milliseconds.  Code that can throw is modelled with
`Except`.  Network responses are environment inputs, passed explicitly.
-/

set_option maxRecDepth 16384

namespace GrantHunter

/-- Character-level model of the JS `\s` class (ASCII whitespace). -/
def isWs (c : Char) : Bool := c == ' ' || c == '\t' || c == '\n' || c == '\r'

/-- Collapses every whitespace run to a single space; the Bool flag says
whether the previous character was part of a whitespace run. -/
def squishWs : List Char → Bool → List Char
  | [], _ => []
  | c :: t, prevWs =>
    if isWs c then
      (if prevWs then squishWs t true else ' ' :: squishWs t true)
    else c :: squishWs t false

/-- Drops leading and trailing whitespace, as JS `String.prototype.trim`. -/
def trimWs (l : List Char) : List Char :=
  ((l.dropWhile (fun c => isWs c)).reverse.dropWhile (fun c => isWs c)).reverse

/-- `normalizeWhitespace` from the source: `text.replace(/\s+/g, " ").trim()`. -/
def normalizeWhitespace (s : String) : String :=
  String.mk (trimWs (squishWs s.data false))

/-- Models JS `String.prototype.toLowerCase` (ASCII case folding). -/
def jsToLower (s : String) : String := String.mk (s.data.map Char.toLower)

/-- Substring test on character lists, modelling JS `String.prototype.includes`. -/
def isInfixList : List Char → List Char → Bool
  | [], needle => needle.isEmpty
  | c :: t, needle => needle.isPrefixOf (c :: t) || isInfixList t needle

/-- JS `s.includes(sub)`. -/
def includes (s sub : String) : Bool := isInfixList s.data sub.data

/-- `includesAny` from the source: lowercases the text and tests each keyword. -/
def includesAny (text : String) (keywords : List String) : Bool :=
  keywords.any (fun kw => includes (jsToLower text) kw)

/-- JS `s.endsWith(suffix)`. -/
def endsWith (s sfx : String) : Bool := sfx.data.isSuffixOf s.data

/-- JS `a || b` on strings (empty string is falsy). -/
def jsOr (a b : String) : String := if a == "" then b else a

/-- Truthiness of a JS value that is either a string or null. -/
def jsTruthy : Option String → Bool
  | some s => !(s == "")
  | none => false

/-- JS `v || b` where `v` is a string-or-null value. -/
def jsOrOpt (v : Option String) (b : String) : String :=
  match v with
  | some s => if s == "" then b else s
  | none => b

/-- JS `Array.prototype.join(sep)`. -/
def joinWith (sep : String) : List String → String
  | [] => ""
  | [x] => x
  | x :: y :: xs => x ++ sep ++ joinWith sep (y :: xs)

/-- Days from the Unix epoch to the civil date `(y, m, d)` for `1 ≤ m ≤ 12`;
`d` may lie outside the month and rolls over, exactly as the day argument of
JS `Date.UTC` does (Hinnant's days-from-civil algorithm, floor division). -/
def daysFromCivil (y m d : Int) : Int :=
  let y2 := y - (if m ≤ 2 then 1 else 0)
  let era := Int.fdiv y2 400
  let yoe := y2 - era * 400
  let mp := if m > 2 then m - 3 else m + 9
  let doy := Int.fdiv (153 * mp + 2) 5 + d - 1
  let doe := yoe * 365 + Int.fdiv yoe 4 - Int.fdiv yoe 100 + doy
  era * 146097 + doe - 719468

/-- Civil date `(y, m, d)` of a day count from the Unix epoch
(Hinnant's civil-from-days algorithm). -/
def civilFromDays (days : Int) : Int × Int × Int :=
  let z := days + 719468
  let era := Int.fdiv z 146097
  let doe := (z - era * 146097).toNat
  let yoe := (doe - doe / 1460 + doe / 36524 - doe / 146096) / 365
  let doy := doe - (365 * yoe + yoe / 4 - yoe / 100)
  let mp := (5 * doy + 2) / 153
  let d := doy - (153 * mp + 2) / 5 + 1
  let m := if mp < 10 then mp + 3 else mp - 9
  let y : Int := (yoe : Int) + era * 400 + (if (m : Int) ≤ 2 then 1 else 0)
  (y, (m : Int), (d : Int))

/-- Left-pads a number with zeros to the given width. -/
def padNum (width : Nat) (n : Nat) : String :=
  let s := toString n
  String.mk (List.replicate (width - s.length) '0') ++ s

/-- Formats a day count as the `YYYY-MM-DD` part of JS `toISOString`. -/
def isoDateOfDays (days : Int) : String :=
  let c := civilFromDays days
  let y := c.1
  let yearStr :=
    if 0 ≤ y && y ≤ 9999 then padNum 4 y.toNat
    else if y < 0 then "-" ++ padNum 6 (-y).toNat
    else "+" ++ padNum 6 y.toNat
  yearStr ++ "-" ++ padNum 2 c.2.1.toNat ++ "-" ++ padNum 2 c.2.2.toNat

/-- Milliseconds per day. -/
def msPerDay : Int := 86400000

/-- The largest time value a JS `Date` can hold (8.64e15 ms). -/
def maxJsTime : Int := 8640000000000000

/-- `toIsoDate` from the source:
`new Date(Date.UTC(year, month - 1, day))`, the `Number.isNaN` range check,
and `toISOString().slice(0, 10)`.  `Date.UTC` rolls an out-of-range day over
into the following month, so the `isNaN` check only fires when the time value
leaves the representable range, never for dates such as February 31. -/
def toIsoDate (year month day : Int) : Option String :=
  let days := daysFromCivil year month day
  let t := days * msPerDay
  if -maxJsTime ≤ t && t ≤ maxJsTime then some (isoDateOfDays days) else none

/-- Numeric value of a digit character. -/
def digitVal (c : Char) : Nat := c.toNat - '0'.toNat

/-- Number of days in a calendar month. -/
def daysInMonth (y m : Int) : Int :=
  let leap := (y % 4 == 0 && y % 100 != 0) || y % 400 == 0
  if m == 2 then (if leap then 29 else 28)
  else if m == 4 || m == 6 || m == 9 || m == 11 then 30
  else 31

/-- Splits a strict `YYYY-MM-DD` string into parts, validating the calendar
date (month range and real day-of-month), as the V8 ISO date parser does. -/
def parseIsoDateParts (s : String) : Option (Int × Int × Int) :=
  match s.data with
  | [y1, y2, y3, y4, h1, m1, m2, h2, d1, d2] =>
    if y1.isDigit && y2.isDigit && y3.isDigit && y4.isDigit &&
       h1 == '-' && h2 == '-' && m1.isDigit && m2.isDigit &&
       d1.isDigit && d2.isDigit then
      let y : Int := ((1000 * digitVal y1 + 100 * digitVal y2 +
        10 * digitVal y3 + digitVal y4 : Nat) : Int)
      let m : Int := ((10 * digitVal m1 + digitVal m2 : Nat) : Int)
      let d : Int := ((10 * digitVal d1 + digitVal d2 : Nat) : Int)
      if 1 ≤ m && m ≤ 12 && 1 ≤ d && d ≤ daysInMonth y m then
        some (y, m, d)
      else none
    else none
  | _ => none

/-- Models `Date.parse(iso + "T23:59:59Z")` for a strict ISO `YYYY-MM-DD`
argument; anything else is treated as unparseable (`NaN`, i.e. `none`). -/
def parseDeadlineEndMs (iso : String) : Option Int :=
  match parseIsoDateParts iso with
  | some (y, m, d) =>
    let t := daysFromCivil y m d * msPerDay + 86399000
    if -maxJsTime ≤ t && t ≤ maxJsTime then some t else none
  | none => none

/-- Models `Date.parse(iso + "T00:00:00Z")` for a strict ISO date string. -/
def parseDeadlineStartMs (iso : String) : Option Int :=
  match parseIsoDateParts iso with
  | some (y, m, d) =>
    let t := daysFromCivil y m d * msPerDay
    if -maxJsTime ≤ t && t ≤ maxJsTime then some t else none
  | none => none

/-- The `YYYY-MM-DD` part of `new Date(nowMs).toISOString()`. -/
def isoDateOfMs (nowMs : Int) : String :=
  isoDateOfDays (Int.fdiv nowMs msPerDay)

/-- Digit in the regex class `[1-9]`. -/
def isD19 (c : Char) : Bool := '1' ≤ c && c ≤ '9'

/-- The regex `\w` class. -/
def isWordChar (c : Char) : Bool := c.isAlphanum || c == '_'

/-- Word-boundary `\b` holds to the left of the match position (the matched
patterns all start with a word character). -/
def boundaryL : Option Char → Bool
  | none => true
  | some c => !isWordChar c

/-- Word-boundary `\b` holds after the match (the matched patterns all end
with a word character). -/
def boundaryR : List Char → Bool
  | [] => true
  | c :: _ => !isWordChar c

/-- Candidates for the regex `(0?[1-9]|1[0-2])` at the current position, in
backtracking order: each entry is the month value and the remaining input. -/
def monthNumAlts : List Char → List (Nat × List Char)
  | '0' :: c :: t => if isD19 c then [(digitVal c, t)] else []
  | c :: t =>
    (if isD19 c then [(digitVal c, t)] else []) ++
    (if c == '1' then
      match t with
      | c2 :: t2 => if '0' ≤ c2 && c2 ≤ '2' then [(10 + digitVal c2, t2)] else []
      | [] => []
     else [])
  | [] => []

/-- Candidates for the regex `(0?[1-9]|[12]\d|3[01])`, in backtracking order. -/
def dayNumAlts : List Char → List (Nat × List Char)
  | '0' :: c :: t => if isD19 c then [(digitVal c, t)] else []
  | c :: t =>
    (if isD19 c then [(digitVal c, t)] else []) ++
    (if c == '1' || c == '2' then
      match t with
      | c2 :: t2 => if c2.isDigit then [(10 * digitVal c + digitVal c2, t2)] else []
      | [] => []
     else []) ++
    (if c == '3' then
      match t with
      | c2 :: t2 => if c2 == '0' || c2 == '1' then [(30 + digitVal c2, t2)] else []
      | [] => []
     else [])
  | [] => []

/-- The regex `20\d{2}` at the current position. -/
def yearAlt : List Char → Option (Nat × List Char)
  | '2' :: '0' :: a :: b :: t =>
    if a.isDigit && b.isDigit then some (2000 + 10 * digitVal a + digitVal b, t)
    else none
  | _ => none

/-- Separators of the direct-ISO pattern: `[-\/]`. -/
def isoSep (c : Char) : Bool := c == '-' || c == '/'

/-- Separators of the numeric day/month/year pattern: `[\/\-.]`. -/
def dmySep (c : Char) : Bool := c == '/' || c == '-' || c == '.'

/-- Leftmost-match scan of a position matcher over the input, tracking the
previous character for word-boundary checks, as a JS regex `match` does. -/
def scanPat {α : Type} (f : Option Char → List Char → Option α) :
    Option Char → List Char → Option α
  | prev, [] => f prev []
  | prev, c :: t =>
    match f prev (c :: t) with
    | some r => some r
    | none => scanPat f (some c) t

/-- Match of `\b(20\d{2})[-\/](0?[1-9]|1[0-2])[-\/](0?[1-9]|[12]\d|3[01])\b`
at one position; returns `(year, month, day)`. -/
def matchIsoAt (prev : Option Char) (l : List Char) : Option (Int × Int × Int) :=
  if boundaryL prev then
    match yearAlt l with
    | some (y, r1) =>
      match r1 with
      | s1 :: r2 =>
        if isoSep s1 then
          (monthNumAlts r2).findSome? (fun mc =>
            match mc.2 with
            | s2 :: r3 =>
              if isoSep s2 then
                (dayNumAlts r3).findSome? (fun dc =>
                  if boundaryR dc.2 then some ((y : Int), (mc.1 : Int), (dc.1 : Int))
                  else none)
              else none
            | [] => none)
        else none
      | [] => none
    | none => none
  else none

/-- Match of `\b(0?[1-9]|[12]\d|3[01])[\/\-.](0?[1-9]|1[0-2])[\/\-.](20\d{2})\b`
at one position; returns `(year, month, day)`. -/
def matchDmyAt (prev : Option Char) (l : List Char) : Option (Int × Int × Int) :=
  if boundaryL prev then
    (dayNumAlts l).findSome? (fun dc =>
      match dc.2 with
      | s1 :: r1 =>
        if dmySep s1 then
          (monthNumAlts r1).findSome? (fun mc =>
            match mc.2 with
            | s2 :: r2 =>
              if dmySep s2 then
                match yearAlt r2 with
                | some (y, r3) =>
                  if boundaryR r3 then some ((y : Int), (mc.1 : Int), (dc.1 : Int))
                  else none
                | none => none
              else none
            | [] => none)
        else none
      | [] => none)
  else none

/-- The `MONTHS` table, in source order (the order of the regex alternation). -/
def monthNames : List (String × Nat) :=
  [("january", 1), ("jan", 1), ("february", 2), ("feb", 2), ("march", 3),
   ("mar", 3), ("april", 4), ("apr", 4), ("may", 5), ("june", 6), ("jun", 6),
   ("july", 7), ("jul", 7), ("august", 8), ("aug", 8), ("september", 9),
   ("sept", 9), ("sep", 9), ("october", 10), ("oct", 10), ("november", 11),
   ("nov", 11), ("december", 12), ("dec", 12)]

/-- Case-insensitive literal match of `pat` at the head of `l`, returning the
remaining input. -/
def ciStartsAux : List Char → List Char → Option (List Char)
  | [], l => some l
  | _ :: _, [] => none
  | p :: ps, c :: cs =>
    if Char.toLower c == Char.toLower p then ciStartsAux ps cs else none

/-- Case-insensitive literal prefix match for a pattern string. -/
def ciStarts (pat : String) (l : List Char) : Option (List Char) :=
  ciStartsAux pat.data l

/-- Candidates of the month-name alternation, in alternation order. -/
def monthNameAlts (l : List Char) : List (Nat × List Char) :=
  monthNames.filterMap (fun p => (ciStarts p.1 l).map (fun r => (p.2, r)))

/-- The regex `\s+` (the following token never starts with whitespace, so the
greedy match is the only viable one). -/
def ws1 : List Char → Option (List Char)
  | c :: t => if isWs c then some (t.dropWhile (fun x => isWs x)) else none
  | [] => none

/-- Match of `\b(day)\s+(monthname)\s+(20\d{2})\b` (case-insensitive) at one
position; returns `(year, month, day)`. -/
def matchDayMonthYearAt (prev : Option Char) (l : List Char) :
    Option (Int × Int × Int) :=
  if boundaryL prev then
    (dayNumAlts l).findSome? (fun dc =>
      match ws1 dc.2 with
      | some r1 =>
        (monthNameAlts r1).findSome? (fun mc =>
          match ws1 mc.2 with
          | some r2 =>
            match yearAlt r2 with
            | some (y, r3) =>
              if boundaryR r3 then some ((y : Int), (mc.1 : Int), (dc.1 : Int))
              else none
            | none => none
          | none => none)
      | none => none)
  else none

/-- Match of `\b(monthname)\s+(day)\s+(20\d{2})\b` (case-insensitive) at one
position; returns `(year, month, day)`. -/
def matchMonthDayYearAt (prev : Option Char) (l : List Char) :
    Option (Int × Int × Int) :=
  if boundaryL prev then
    (monthNameAlts l).findSome? (fun mc =>
      match ws1 mc.2 with
      | some r1 =>
        (dayNumAlts r1).findSome? (fun dc =>
          match ws1 dc.2 with
          | some r2 =>
            match yearAlt r2 with
            | some (y, r3) =>
              if boundaryR r3 then some ((y : Int), (mc.1 : Int), (dc.1 : Int))
              else none
            | none => none
          | none => none)
      | none => none)
  else none

/-- `parseDateFromText` from the source: normalizes commas/whitespace, then
tries the direct-ISO, numeric day-month-year, and the two month-name regexes
in order, handing the first match to `toIsoDate`. -/
def parseDateFromText (text : String) : Option String :=
  if text == "" then none
  else
    let normalized :=
      trimWs (squishWs (text.data.map (fun c => if c == ',' then ' ' else c)) false)
    match scanPat matchIsoAt none normalized with
    | some (y, m, d) => toIsoDate y m d
    | none =>
      match scanPat matchDmyAt none normalized with
      | some (y, m, d) => toIsoDate y m d
      | none =>
        match scanPat matchDayMonthYearAt none normalized with
        | some (y, m, d) => toIsoDate y m d
        | none =>
          match scanPat matchMonthDayYearAt none normalized with
          | some (y, m, d) => toIsoDate y m d
          | none => none

/-- Expansion of the labelled-deadline regex group
`(deadline|closing date|applications? close(?:s|d)?|closes?|closing)`
into literal alternatives, in backtracking order. -/
def deadlineLabels : List String :=
  ["deadline", "closing date", "applications closes", "applications closed",
   "applications close", "application closes", "application closed",
   "application close", "closes", "close", "closing"]

/-- Characters allowed in the captured span `[^\.\n;]`. -/
def allowedG2 (c : Char) : Bool := !(c == '.' || c == '\n' || c == ';')

/-- Match of `\s*[:\-]?\s*([^\.\n;]{4,80})` after a label, with the greedy
backtracking order of the JS engine; returns the captured span. -/
def targetedTail (rest : List Char) : Option (List Char) :=
  let ws1max := (rest.takeWhile (fun c => isWs c)).length
  (List.range (ws1max + 1)).findSome? (fun k =>
    let r1 := rest.drop (ws1max - k)
    let colonOpts : List (List Char) :=
      match r1 with
      | c :: t => if c == ':' || c == '-' then [t, r1] else [r1]
      | [] => [r1]
    colonOpts.findSome? (fun r2 =>
      let ws2max := (r2.takeWhile (fun c => isWs c)).length
      (List.range (ws2max + 1)).findSome? (fun j =>
        let r3 := r2.drop (ws2max - j)
        let g := (r3.takeWhile allowedG2).take 80
        if 4 ≤ g.length then some g else none)))

/-- Match of the full labelled-deadline regex at one position. -/
def matchTargetedAt (l : List Char) : Option (List Char) :=
  deadlineLabels.findSome? (fun lab =>
    match ciStarts lab l with
    | some rest => targetedTail rest
    | none => none)

/-- Leftmost match of the labelled-deadline regex over the raw text. -/
def scanTargeted : List Char → Option (List Char)
  | [] => none
  | c :: t =>
    match matchTargetedAt (c :: t) with
    | some g => some g
    | none => scanTargeted t

/-- `extractDeadline` from the source: parse the span after a deadline label
first, then fall back to scanning the whole text. -/
def extractDeadline (text : String) : Option String :=
  if text == "" then none
  else
    match scanTargeted text.data with
    | some g2 =>
      match parseDateFromText (String.mk g2) with
      | some parsed => some parsed
      | none => parseDateFromText text
    | none => parseDateFromText text

/-- Remaining input after the monetary-amount regex
`£\s?\d[\d,]*(?:\.\d+)?\s?(?:m|k|million|billion|thousand)?(?:\s*(?:per year|a year|total))?`
matches at the head of `l` (which must start with `£`). -/
def amountRest (l : List Char) : Option (List Char) :=
  match l with
  | '£' :: r0 =>
    let r1 := match r0 with
      | c :: t => if isWs c then t else r0
      | [] => r0
    match r1 with
    | d :: r2 =>
      if d.isDigit then
        let r3 := r2.dropWhile (fun c => c.isDigit || c == ',')
        let r4 := match r3 with
          | '.' :: c :: t => if c.isDigit then (c :: t).dropWhile (fun x => x.isDigit) else r3
          | _ => r3
        let r5 := match r4 with
          | c :: t => if isWs c then t else r4
          | [] => r4
        let r6 := match ["m", "k", "million", "billion", "thousand"].findSome?
            (fun w => ciStarts w r5) with
          | some r => r
          | none => r5
        let afterWs := r6.dropWhile (fun c => isWs c)
        let r7 := match ["per year", "a year", "total"].findSome?
            (fun w => ciStarts w afterWs) with
          | some r => r
          | none => r6
        some r7
      else none
    | [] => none
  | _ => none

/-- Leftmost match of the amount regex; returns the matched span. -/
def scanAmount : List Char → Option String
  | [] => none
  | c :: t =>
    match amountRest (c :: t) with
    | some rest => some (String.mk ((c :: t).take ((c :: t).length - rest.length)))
    | none => scanAmount t

/-- `extractAmount` from the source. -/
def extractAmount (text : String) : Option String :=
  if text == "" then none
  else
    match scanAmount text.data with
    | some m => some (normalizeWhitespace m)
    | none => none

/-- `classifyType` from the source: keyword priority
fellowship > scholarship/studentship/bursary > award > call/competition > grant. -/
def classifyType (raw : String) : String :=
  let text := jsToLower raw
  if includes text "fellowship" then "fellowship"
  else if includes text "scholarship" || includes text "studentship" ||
      includes text "bursary" then "scholarship"
  else if includes text "award" then "award"
  else if includes text "call" || includes text "competition" then "call"
  else "grant"

/-- The explicit closed-language test of `inferStatus` (on lowercased text). -/
def hasClosedLang (lower : String) : Bool :=
  includes lower "closed" || includes lower "applications closed" ||
  includes lower "this call is closed"

/-- The explicit open-language test of `inferStatus` (on lowercased text). -/
def hasOpenLang (lower : String) : Bool :=
  includes lower "open" || includes lower "applications open" ||
  includes lower "now open"

/-- `inferStatus` from the source.  `Date.now()` is passed in as `nowMs`;
the deadline is compared as the end of its day (`T23:59:59Z`). -/
def inferStatus (text : String) (deadlineIso : Option String) (nowMs : Int) :
    String :=
  let lower := jsToLower text
  if hasClosedLang lower then "closed"
  else if hasOpenLang lower then
    (if jsTruthy deadlineIso then
      match parseDeadlineEndMs (jsOrOpt deadlineIso "") with
      | some t => if t < nowMs then "closed" else "open"
      | none => "open"
     else "open")
  else
    (if jsTruthy deadlineIso then
      match parseDeadlineEndMs (jsOrOpt deadlineIso "") with
      | some t => if t < nowMs then "closed" else "open"
      | none => "open"
     else "unknown")

/-- `inferLevels` from the source. -/
def inferLevels (text : String) : List String :=
  let lower := jsToLower text
  let l1 := if includes lower "undergraduate" || includes lower "bachelor"
    then ["undergraduate"] else []
  let l2 := if includes lower "masters" || includes lower "master\x27s" ||
      includes lower "postgraduate taught" then ["masters"] else []
  let l3 := if includes lower "phd" || includes lower "doctoral" ||
      includes lower "doctorate" then ["phd"] else []
  let l4 := if includes lower "postdoc" || includes lower "postdoctoral"
    then ["postdoc"] else []
  let l5 := if includes lower "fellow" || includes lower "principal investigator" ||
      includes lower "investigator" then ["academic"] else []
  (l1 ++ l2 ++ l3 ++ l4 ++ l5).eraseDups

/-- `inferCareerStage` from the source. -/
def inferCareerStage (text : String) : List String :=
  let lower := jsToLower text
  let s1 := if includes lower "early career" || includes lower "new investigator" ||
      includes lower "starting" then ["early"] else []
  let s2 := if includes lower "mid-career" || includes lower "mid career"
    then ["mid"] else []
  let s3 := if includes lower "senior" || includes lower "established investigator"
    then ["senior"] else []
  let stages := s1 ++ s2 ++ s3
  let stages2 :=
    if stages.isEmpty && (includes lower "postdoc" || includes lower "phd")
    then stages ++ ["early"] else stages
  stages2.eraseDups

/-- `inferNationalities` from the source. -/
def inferNationalities (text : String) : List String :=
  let lower := jsToLower text
  let t1 := if includes lower "uk only" || includes lower "uk-based" ||
      includes lower "uk institutions" || includes lower "united kingdom"
    then ["uk"] else []
  let t2 := if includes lower "international" || includes lower "all nationalities" ||
      includes lower "worldwide" then ["international"] else []
  let t3 := if includes lower "eu" || includes lower "european" then ["eu"] else []
  let tags := t1 ++ t2 ++ t3
  let tags2 := if tags.isEmpty then tags ++ ["any"] else tags
  tags2.eraseDups

/-- The `DISCIPLINE_PATTERNS` table, in source (insertion) order. -/
def disciplinePatterns : List (String × List String) :=
  [("life sciences",
    ["biolog", "biomedical", "life science", "genetic", "molecular", "neuroscience"]),
   ("medicine and health",
    ["health", "clinical", "medical", "public health", "cancer", "heart"]),
   ("engineering",
    ["engineering", "materials", "mechanical", "electrical", "civil"]),
   ("computer science and ai",
    ["computer", "ai", "artificial intelligence", "machine learning", "data science"]),
   ("physical sciences",
    ["physics", "chemistry", "mathematics", "astronomy"]),
   ("environment and earth",
    ["climate", "environment", "ecology", "geology", "sustainability"]),
   ("social sciences",
    ["social", "economics", "politics", "policy", "education", "psychology"]),
   ("humanities",
    ["history", "philosophy", "linguistics", "literature", "arts", "culture"]),
   ("business",
    ["entrepreneur", "business", "innovation", "commercialisation", "startup"])]

/-- `inferDisciplines` from the source. -/
def inferDisciplines (text : String) : List String :=
  let lower := jsToLower text
  let hits := disciplinePatterns.filterMap
    (fun p => if p.2.any (fun pat => includes lower pat) then some p.1 else none)
  if hits.isEmpty then ["all disciplines"] else hits

/-- Error raised by JS when a string method is called on `null`. -/
def jsNullTypeError : String := "TypeError: cannot read properties of null"

/-- `extractDeadline` on the JS value domain (string or null): the source
guards falsy inputs with `if (!text) return null`, so null never throws. -/
def extractDeadlineJs : Option String → Except String (Option String)
  | none => .ok none
  | some t => .ok (extractDeadline t)

/-- `extractAmount` on the JS value domain: guarded, so null never throws. -/
def extractAmountJs : Option String → Except String (Option String)
  | none => .ok none
  | some t => .ok (extractAmount t)

/-- `classifyType` on the JS value domain: `raw.toLowerCase()` throws a
`TypeError` when `raw` is null (there is no guard in the source). -/
def classifyTypeJs : Option String → Except String String
  | none => .error jsNullTypeError
  | some s => .ok (classifyType s)

/-- `inferStatus` on the JS value domain: `text.toLowerCase()` throws on null. -/
def inferStatusJs : Option String → Option String → Int → Except String String
  | none, _, _ => .error jsNullTypeError
  | some t, d, n => .ok (inferStatus t d n)

/-- `inferLevels` on the JS value domain: throws on null. -/
def inferLevelsJs : Option String → Except String (List String)
  | none => .error jsNullTypeError
  | some t => .ok (inferLevels t)

/-- `inferCareerStage` on the JS value domain: throws on null. -/
def inferCareerStageJs : Option String → Except String (List String)
  | none => .error jsNullTypeError
  | some t => .ok (inferCareerStage t)

/-- `inferNationalities` on the JS value domain: throws on null. -/
def inferNationalitiesJs : Option String → Except String (List String)
  | none => .error jsNullTypeError
  | some t => .ok (inferNationalities t)

/-- `inferDisciplines` on the JS value domain: throws on null. -/
def inferDisciplinesJs : Option String → Except String (List String)
  | none => .error jsNullTypeError
  | some t => .ok (inferDisciplines t)

/-- JS `s.startsWith(p)`. -/
def startsWithStr (s p : String) : Bool := p.data.isPrefixOf s.data

/-- `isHttpUrl` from the source.  The WHATWG `new URL` parser is modelled for
absolute http/https URLs; any other input is treated as unparseable. -/
def isHttpUrl (rawUrl : String) : Bool :=
  (startsWithStr rawUrl "http://" && rawUrl.length > 7) ||
  (startsWithStr rawUrl "https://" && rawUrl.length > 8)

/-- `getHost` from the source: the URL hostname (lowercased by the parser,
port and path stripped) with a leading `www.` removed; empty string when the
URL does not parse. -/
def getHost (url : String) : String :=
  if isHttpUrl url then
    let after :=
      if startsWithStr url "https://" then url.data.drop 8 else url.data.drop 7
    let host := (after.takeWhile
      (fun c => !(c == '/' || c == '?' || c == '#' || c == ':'))).map Char.toLower
    String.mk (if ("www.".data).isPrefixOf host then host.drop 4 else host)
  else ""

/-- `canonicalizeUrl` from the source: drops the `#fragment` and a trailing
slash of the path, returning the input unchanged when it does not parse as an
http/https URL.  (Other WHATWG URL normalizations are not modelled; the
claims proved below do not depend on them.) -/
def canonicalizeUrl (rawUrl : String) : String :=
  if isHttpUrl rawUrl then
    let noFrag := rawUrl.data.takeWhile (fun c => !(c == '#'))
    let pathPart := noFrag.takeWhile (fun c => !(c == '?'))
    let queryPart := noFrag.drop pathPart.length
    let path2 := if pathPart.getLast? == some '/' then pathPart.dropLast else pathPart
    String.mk (path2 ++ queryPart)
  else rawUrl

/-- `hostMatchesAllowed` from the source: empty allow-list admits every
non-empty host; otherwise a raw string-suffix test against each lowercased
entry (not a dot-separated subdomain test). -/
def hostMatchesAllowed (host : String) (allowedHosts : List String) : Bool :=
  if host == "" then false
  else if allowedHosts.isEmpty then true
  else allowedHosts.any (fun entry => endsWith host (jsToLower entry))

/-- A funding `Source` record (the fields the pipeline reads). -/
structure Source where
  id : String
  name : String
  homepage : String
  includeHosts : List String
deriving Repr, DecidableEq

/-- `resolveAllowedHosts` from the source. -/
def resolveAllowedHosts (source : Source) : List String :=
  if !source.includeHosts.isEmpty then source.includeHosts.map jsToLower
  else
    let homepageHost := getHost source.homepage
    if homepageHost == "" then [] else [jsToLower homepageHost]

/-- `isLikelyNetworkError` from the source. -/
def isLikelyNetworkError (message : String) : Bool :=
  let text := jsToLower message
  includes text "fetch failed" || includes text "network" ||
  includes text "enotfound" || includes text "econnreset" ||
  includes text "econnrefused" || includes text "timed out" ||
  includes text "abort"

/-- The result of a URL check (`checkedAt` and `contentType`, which carry no
verified content, are not modelled). -/
structure CheckResult where
  status : String
  originalUrl : String
  finalUrl : Option String
  httpStatus : Option Nat
  allowedHost : Bool
  redirected : Bool
  error : Option String
deriving Repr, DecidableEq

/-- The final HTTP response the environment returns for a probe (after the
HEAD → GET fallback of `fetchUrlMetadata`, which does not change its shape):
the status code and the final (post-redirect) URL. -/
structure FetchMeta where
  status : Nat
  respUrl : String
deriving Repr, DecidableEq

/-- The metadata record `fetchUrlMetadata` assembles from the final
response: `resp.ok` is status 200–299, `finalUrl` is the canonicalized final
URL, `redirected` compares canonical final and requested URLs. -/
structure UrlMetadata where
  ok : Bool
  status : Nat
  finalUrl : String
  redirected : Bool
deriving Repr, DecidableEq

/-- The metadata construction of `fetchUrlMetadata`. -/
def fetchUrlMetadata (url : String) (resp : FetchMeta) : UrlMetadata :=
  { ok := 200 ≤ resp.status && resp.status < 300,
    status := resp.status,
    finalUrl := canonicalizeUrl (jsOr resp.respUrl url),
    redirected := !(canonicalizeUrl (jsOr resp.respUrl url) == canonicalizeUrl url) }

/-- An `Opportunity` item (the fields the verified pipeline stages read or
write; run-scoped metadata such as `lastSeenAt` and the eligibility sets are
not needed by the claims below). -/
structure Item where
  id : String
  title : String
  url : String
  sourceId : String
  sourceName : String
  sourceHomepage : String
  type : String
  status : String
  deadline : Option String
  amount : Option String
  description : String
  summaryEn : String
  fingerprint : String
  urlCheck : Option CheckResult
  isNew : Bool
  isUpdated : Bool
deriving Repr, DecidableEq

/-- `checkOpportunityUrl` from the source; the network response (or thrown
fetch error message) is an explicit environment input. -/
def checkOpportunityUrl (item : Item) (source : Source)
    (response : Except String FetchMeta) : CheckResult :=
  let originalUrl := canonicalizeUrl item.url
  let allowedHosts := resolveAllowedHosts source
  if !isHttpUrl originalUrl then
    { status := "invalid_url", originalUrl := originalUrl, finalUrl := none,
      httpStatus := none, allowedHost := false, redirected := false,
      error := some "URL is not a valid http/https address" }
  else
    let originalHost := getHost originalUrl
    if !hostMatchesAllowed originalHost allowedHosts then
      { status := "bad_host", originalUrl := originalUrl,
        finalUrl := some originalUrl, httpStatus := none, allowedHost := false,
        redirected := false,
        error := some "URL host is not allowed for this source" }
    else
      match response with
      | .ok resp =>
        let meta := fetchUrlMetadata originalUrl resp
        let finalHost := getHost meta.finalUrl
        let allowedHost := hostMatchesAllowed finalHost allowedHosts
        if !meta.ok then
          if (meta.status == 401 || meta.status == 403 || meta.status == 429) &&
              allowedHost then
            { status := "reachable_restricted", originalUrl := originalUrl,
              finalUrl := some meta.finalUrl, httpStatus := some meta.status,
              allowedHost := true, redirected := meta.redirected,
              error := some ("Restricted response (HTTP " ++ toString meta.status ++
                ") from source host") }
          else
            { status := "http_error", originalUrl := originalUrl,
              finalUrl := some meta.finalUrl, httpStatus := some meta.status,
              allowedHost := allowedHost, redirected := meta.redirected,
              error := some ("HTTP " ++ toString meta.status) }
        else if !allowedHost then
          { status := "bad_host", originalUrl := originalUrl,
            finalUrl := some meta.finalUrl, httpStatus := some meta.status,
            allowedHost := false, redirected := meta.redirected,
            error := some "Redirected to a host outside allowed domains" }
        else
          { status := if meta.redirected then "reachable_with_redirect" else "reachable",
            originalUrl := originalUrl, finalUrl := some meta.finalUrl,
            httpStatus := some meta.status, allowedHost := true,
            redirected := meta.redirected, error := none }
      | .error msg =>
        { status := if isLikelyNetworkError msg then "network_error" else "check_error",
          originalUrl := originalUrl, finalUrl := none, httpStatus := none,
          allowedHost := true, redirected := false, error := some msg }

/-- An entry of the verifier's dropped-items diagnostics. -/
structure DroppedEntry where
  id : String
  title : String
  url : String
  sourceId : String
  reason : String
  detail : String
deriving Repr, DecidableEq

/-- The verifier's summary counters. -/
structure VerifySummary where
  checked : Nat
  reachable : Nat
  reachableWithRedirect : Nat
  reachableRestricted : Nat
  dropped : Nat
  networkErrors : Nat
  networkUnavailable : Bool
  strictMode : Bool
deriving Repr, DecidableEq

/-- The verifier's return value. -/
structure VerifyResult where
  items : List Item
  droppedItems : List DroppedEntry
  summary : VerifySummary
deriving Repr, DecidableEq

/-- The `sourceMap` lookup of `verifyOpportunityUrls` (a JS `Map` built from
the source list keeps the last entry per id) with its default-source
fallback. -/
def sourceForItem (sources : List Source) (item : Item) : Source :=
  match sources.foldl (fun acc s => if s.id == item.sourceId then some s else acc)
      none with
  | some s => s
  | none =>
    { id := item.sourceId, name := item.sourceId,
      homepage := jsOr item.sourceHomepage item.url,
      includeHosts := [getHost item.url] }

/-- The `pass` predicate of the verifier's keep/drop loop. -/
def passesCheck (check : CheckResult) : Bool :=
  check.status == "reachable" || check.status == "reachable_with_redirect" ||
  check.status == "reachable_restricted"

/-- The per-item mutation of the verifier's loop: attach `urlCheck` and
rewrite `url` to the canonicalized final URL for the three kept statuses. -/
def annotateItem (item : Item) (check : CheckResult) : Item :=
  let it1 := { item with urlCheck := some check }
  if jsTruthy check.finalUrl &&
      (check.status == "reachable" || check.status == "reachable_with_redirect" ||
       check.status == "reachable_restricted") then
    { it1 with url := canonicalizeUrl (jsOrOpt check.finalUrl "") }
  else it1

/-- The worker pool, which fills one result slot per item index (the cursor
advances synchronously between awaits, so every index is checked exactly
once): slot `i` holds the check of item `i` against environment response `i`. -/
def computeChecks (inputItems : List Item) (sources : List Source)
    (responses : Nat → Except String FetchMeta) : List CheckResult :=
  inputItems.enum.map
    (fun p => checkOpportunityUrl p.2 (sourceForItem sources p.2) (responses p.1))

/-- Marks an item with a synthetic unchecked `urlCheck` record. -/
def markUnchecked (status msg : String) (item : Item) : Item :=
  let check : CheckResult :=
    { status := status, originalUrl := item.url, finalUrl := some item.url,
      httpStatus := none, allowedHost := true, redirected := false,
      error := some msg }
  { item with urlCheck := some check }

/-- The dropped-items diagnostic entry built by the verifier's loop. -/
def droppedEntryOf (item : Item) (check : CheckResult) : DroppedEntry :=
  { id := item.id, title := item.title, url := item.url,
    sourceId := item.sourceId, reason := check.status,
    detail := jsOr (jsOrOpt check.error "")
      ("HTTP " ++ (match check.httpStatus with
        | some s => if s == 0 then "unknown" else toString s
        | none => "unknown")) }

/-- `verifyOpportunityUrls` from the source.  `maxCheckItems` is the
`MAX_URL_CHECK_ITEMS` limit, `strictMode` is `STRICT_URL_VALIDATION`; a
strict-mode network-unavailable run throws, modelled as `Except.error`. -/
def verifyOpportunityUrls (items : List Item) (sources : List Source)
    (responses : Nat → Except String FetchMeta) (maxCheckItems : Nat)
    (strictMode : Bool) : Except String VerifyResult :=
  let inputItems := items.take maxCheckItems
  let uncheckedTail := items.drop maxCheckItems
  let checks := computeChecks inputItems sources responses
  let pairs := inputItems.zip checks
  let checked := inputItems.length
  let networkErrors := checks.countP (fun c => c.status == "network_error")
  let reachable := checks.countP (fun c => c.status == "reachable")
  let reachableWithRedirect := checks.countP (fun c => c.status == "reachable_with_redirect")
  let reachableRestricted := checks.countP (fun c => c.status == "reachable_restricted")
  let keepItems := (pairs.filter (fun p => passesCheck p.2)).map
    (fun p => annotateItem p.1 p.2)
  let droppedRecords := (pairs.filter (fun p => !passesCheck p.2)).map
    (fun p => droppedEntryOf p.1 p.2)
  let limitMsg := "Skipped URL check due to MAX_URL_CHECK_ITEMS=" ++ toString maxCheckItems
  let netMsg := "Skipped strict filtering because network was unavailable during URL checks"
  let networkUnavailable := decide (0 < checked) && (networkErrors == checked)
  let summaryNet : VerifySummary :=
    { checked := checked, reachable := 0, reachableWithRedirect := 0,
      reachableRestricted := 0, dropped := 0, networkErrors := networkErrors,
      networkUnavailable := true, strictMode := strictMode }
  let summaryNormal : VerifySummary :=
    { checked := checked, reachable := reachable,
      reachableWithRedirect := reachableWithRedirect,
      reachableRestricted := reachableRestricted,
      dropped := droppedRecords.length, networkErrors := networkErrors,
      networkUnavailable := false, strictMode := strictMode }
  if networkUnavailable && !strictMode then
    .ok { items :=
            inputItems.map (markUnchecked "unchecked_network_unavailable" netMsg) ++
            uncheckedTail.map (markUnchecked "unchecked_limit" limitMsg),
          droppedItems := [],
          summary := summaryNet }
  else if networkUnavailable && strictMode then
    .error "URL validation failed: network unavailable and STRICT_URL_VALIDATION=true"
  else
    .ok { items := keepItems ++ uncheckedTail.map (markUnchecked "unchecked_limit" limitMsg),
          droppedItems := droppedRecords,
          summary := summaryNormal }

/-- Lookup in the insertion-ordered association list that models a JS `Map`. -/
def mapLookup (m : List (String × Item)) (k : String) : Option Item :=
  match m with
  | [] => none
  | (k2, v) :: t => if k == k2 then some v else mapLookup t k

/-- `Map.set`: replaces the value in place for an existing key (keeping the
key's insertion position), otherwise appends. -/
def mapSet (m : List (String × Item)) (k : String) (v : Item) :
    List (String × Item) :=
  match m with
  | [] => [(k, v)]
  | (k2, v2) :: t => if k == k2 then (k2, v) :: t else (k2, v2) :: mapSet t k v

/-- The collision score of `mergeAndDedupe`:
`(description?.length || 0) + (deadline ? 30 : 0)`. -/
def mergeSignalScore (item : Item) : Nat :=
  item.description.length + (if jsTruthy item.deadline then 30 else 0)

/-- One iteration of the `mergeAndDedupe` loop. -/
def mergeStep (m : List (String × Item)) (item : Item) : List (String × Item) :=
  let key := canonicalizeUrl item.url
  match mapLookup m key with
  | none => mapSet m key item
  | some prev =>
    if mergeSignalScore item > mergeSignalScore prev then mapSet m key item else m

/-- `mergeAndDedupe` from the source: group by canonical URL, keeping the
higher-scoring record per key, and return the values in key-insertion order. -/
def mergeAndDedupe (items : List Item) : List Item :=
  (items.foldl mergeStep []).map (fun p => p.2)

/-- The `[...].join("|")` argument of `buildFingerprint`. -/
def fingerprintInput (item : Item) : String :=
  joinWith "|"
    [item.title, item.url, jsOrOpt item.deadline "", jsOrOpt item.amount "",
     item.status, String.mk (item.description.data.take 320)]

/-- `buildFingerprint` from the source; the SHA-1 digest is modelled as an
abstract hash function parameter. -/
def buildFingerprint (sha1 : String → String) (item : Item) : String :=
  sha1 (fingerprintInput item)

/-- `daysUntil` from the source: `Math.ceil` of the millisecond distance from
now to the end of the deadline day, in days; 9999 when the date is invalid. -/
def daysUntil (isoDate : String) (nowMs : Int) : Int :=
  match parseDeadlineEndMs isoDate with
  | none => 9999
  | some target => Int.fdiv (target - nowMs + msPerDay - 1) msPerDay

/-- `escapeMd` from the source. -/
def escapeMd (text : String) : String :=
  normalizeWhitespace (String.mk (text.data.map
    (fun c => if c == '[' || c == ']' || c == '(' || c == ')' then ' ' else c)))

/-- Stable insertion of an element into a sorted list. -/
def insertByLe {α : Type} (le : α → α → Bool) (a : α) : List α → List α
  | [] => [a]
  | b :: t => if le a b then a :: b :: t else b :: insertByLe le a t

/-- Stable insertion sort, the model of the JS `Array.prototype.sort`
comparator calls. -/
def sortByLe {α : Type} (le : α → α → Bool) : List α → List α
  | [] => []
  | a :: t => insertByLe le a (sortByLe le t)

/-- Digest statistics. -/
structure DigestStats where
  newItems : Nat
  updatedItems : Nat
  closingSoon : Nat
deriving Repr, DecidableEq

/-- The digest record. -/
structure Digest where
  subject : String
  markdown : String
  stats : DigestStats
deriving Repr, DecidableEq

/-- The placeholder line the digest emits when there are no new items. -/
def digestNoNewLine : String :=
  "- No new items were detected today (source updates may be limited or blocked)."

/-- The placeholder line when nothing closes within 14 days (the source pushes
it with a trailing newline). -/
def digestNoClosingLine : String :=
  "- No opportunities close within the next 14 days.\n"

/-- The fixed footer line of the digest (pushed with a trailing newline). -/
def digestFooterLine : String :=
  "This brief is auto-generated by GitHub Actions. Always verify details on the official source page.\n"

/-- A new-item bullet of the digest. -/
def newItemLine (item : Item) : String :=
  "- [" ++ escapeMd item.title ++ "](" ++ item.url ++ ") | " ++ item.sourceName ++
  " | Deadline: " ++ jsOrOpt item.deadline "TBC" ++ " | " ++ escapeMd item.summaryEn

/-- A closing-soon bullet of the digest. -/
def closingSoonLine (p : Item × Int) : String :=
  "- [" ++ escapeMd p.1.title ++ "](" ++ p.1.url ++ ") | " ++ p.1.sourceName ++
  " | D-" ++ toString p.2

/-- `createDigest` from the source.  `previousMap` is the previous snapshot
indexed by id; `nowMs` stands for `Date.now()` / `new Date()`. -/
def createDigest (items : List Item) (previousMap : List (String × Item))
    (nowMs : Int) : Digest :=
  let newItems := items.filter (fun it => (mapLookup previousMap it.id).isNone)
  let updatedItems := items.filter (fun it =>
    match mapLookup previousMap it.id with
    | some prev => !(prev.fingerprint == it.fingerprint)
    | none => false)
  let closingSoon :=
    sortByLe (fun a b => decide (a.2 ≤ b.2))
      (((items.filter (fun it => jsTruthy it.deadline && it.status == "open")).map
          (fun it => (it, daysUntil (jsOrOpt it.deadline "") nowMs))).filter
        (fun p => decide (0 ≤ p.2) && decide (p.2 ≤ 14)))
  let dateStr := isoDateOfMs nowMs
  let subject := "UK Funding Daily Brief | " ++ dateStr ++ " | " ++
    toString newItems.length ++ " new"
  let lines : List String :=
    ["# UK Academic Funding Daily Brief (" ++ dateStr ++ ")", "",
     "- New opportunities: **" ++ toString newItems.length ++ "**",
     "- Updated opportunities: **" ++ toString updatedItems.length ++ "**",
     "- Closing within 14 days: **" ++ toString closingSoon.length ++ "**",
     "", "## New Opportunities (Top 12)"] ++
    (if newItems.length == 0 then [digestNoNewLine]
     else (newItems.take 12).map newItemLine) ++
    ["", "## Closing Soon (Within 14 Days)"] ++
    (if closingSoon.length == 0 then [digestNoClosingLine]
     else (closingSoon.take 12).map closingSoonLine) ++
    ["", "---", digestFooterLine]
  let stats : DigestStats :=
    { newItems := newItems.length, updatedItems := updatedItems.length,
      closingSoon := closingSoon.length }
  { subject := subject, markdown := joinWith "\n" lines, stats := stats }

/-- The status priority of `sortItems`. -/
def statusRank (s : String) : Nat :=
  if s == "open" then 0 else if s == "unknown" then 1
  else if s == "closed" then 2 else 3

/-- The deadline sort key of `sortItems`: `Date.parse` of the start of the
deadline day, `Infinity` (modelled as `none`) when absent. -/
def deadlineSortKey (item : Item) : Option Int :=
  if jsTruthy item.deadline then parseDeadlineStartMs (jsOrOpt item.deadline "")
  else none

/-- Strict order on the deadline keys with `none` as plus infinity. -/
def optIntLT : Option Int → Option Int → Bool
  | some a, some b => decide (a < b)
  | some _, none => true
  | none, some _ => false
  | none, none => false

/-- The comparator of `sortItems` as a should-come-no-later test. -/
def itemLe (a b : Item) : Bool :=
  let sa := statusRank a.status
  let sb := statusRank b.status
  if sa < sb then true
  else if sb < sa then false
  else
    let da := deadlineSortKey a
    let db := deadlineSortKey b
    if optIntLT da db then true
    else if optIntLT db da then false
    else
      match compare a.title b.title with
      | .gt => false
      | _ => true

/-- `sortItems` from the source: status priority, then ascending deadline
(absent deadlines last), then title. -/
def sortItems (items : List Item) : List Item := sortByLe itemLe items

/-- The tail of `main` after URL verification: re-merge by canonical URL,
cap at `MAX_TOTAL_ITEMS`, recompute fingerprints, sort, and attach the
`isNew` / `isUpdated` diff flags from the previous snapshot (the enrichment
step only touches `summary`/`eligibility` and is omitted: it does not change
`id` or `url`). -/
def finalizeRun (sha1 : String → String) (previousMap : List (String × Item))
    (maxTotalItems : Nat) (verifiedItems : List Item) : List Item :=
  let deduped := (mergeAndDedupe verifiedItems).take maxTotalItems
  let withFp := deduped.map (fun it => { it with fingerprint := buildFingerprint sha1 it })
  let sorted := sortItems withFp
  sorted.map (fun it =>
    { it with
      isNew := (mapLookup previousMap it.id).isNone,
      isUpdated := match mapLookup previousMap it.id with
        | some prev => !(prev.fingerprint == it.fingerprint)
        | none => false })

/-- `s` occurs as a contiguous substring of `t`. -/
def strContains (t s : String) : Prop := ∃ p q : String, t = p ++ s ++ q

/-- A concrete well-formed item used to instantiate theorems at specific
inputs (individual fields are overridden per use). -/
def baseItem : Item :=
  { id := "id0", title := "Sample grant opportunity",
    url := "https://example.com/grants/sample", sourceId := "src",
    sourceName := "Example Source", sourceHomepage := "https://example.com",
    type := "grant", status := "open", deadline := none, amount := none,
    description := "Funding for research projects.", summaryEn := "A grant.",
    fingerprint := "", urlCheck := none, isNew := false, isUpdated := false }

/-- A concrete source whose allow-list contains only `example.com`. -/
def exampleSource : Source :=
  { id := "src", name := "Example Source", homepage := "https://example.com",
    includeHosts := ["example.com"] }

/-- Concrete colliding item: 200-character description, no deadline. -/
def itemLongNoDeadline : Item :=
  { baseItem with
    description := String.mk (List.replicate 200 'a'),
    deadline := none }

/-- Concrete colliding item: 50-character description, with a deadline. -/
def itemShortWithDeadline : Item :=
  { baseItem with
    id := "id1",
    title := "Other title",
    description := String.mk (List.replicate 50 'b'),
    deadline := some "2026-06-30" }

/-- Witness variant of `itemLongNoDeadline`. -/
def itemLongW : Item :=
  { baseItem with
    description := String.mk (List.replicate 200 'c'),
    deadline := none }

/-- Witness variant of `itemShortWithDeadline`. -/
def itemShortW : Item :=
  { baseItem with
    id := "idW",
    title := "Witness title",
    description := String.mk (List.replicate 50 'd'),
    deadline := some "2026-06-30" }

/-- A second concrete item with a distinct id and URL. -/
def itemOther : Item :=
  { baseItem with
    id := "id2",
    url := "https://example.com/other",
    title := "Another opportunity" }

/-- A concrete open item closing on 2026-02-10, carried over unchanged from
the previous snapshot. -/
def itemClosingSoon : Item :=
  { baseItem with
    deadline := some "2026-02-10",
    fingerprint := "fp0" }

/-! ### Helper lemmas -/

theorem strDataInj {a b : String} (h : a.data = b.data) : a = b := by
  cases a
  cases b
  exact congrArg String.mk h

theorem strCancelLeft {a b c : String} (h : a ++ b = a ++ c) : b = c := by
  apply strDataInj
  have h2 := congrArg String.data h
  simp only [String.data_append] at h2
  exact List.append_cancel_left h2

theorem strCancelRight {a b c : String} (h : a ++ c = b ++ c) : a = b := by
  apply strDataInj
  have h2 := congrArg String.data h
  simp only [String.data_append] at h2
  exact List.append_cancel_right h2

theorem strContainsOfMemJoin (sep s : String) :
    ∀ l : List String, s ∈ l → strContains (joinWith sep l) s := by
  intro l
  induction l with
  | nil => intro h; cases h
  | cons x xs ih =>
    intro h
    rcases List.mem_cons.mp h with h1 | h2
    · subst h1
      cases xs with
      | nil =>
        refine ⟨"", "", ?_⟩
        apply strDataInj
        simp [joinWith, String.data_append]
      | cons y ys =>
        refine ⟨"", sep ++ joinWith sep (y :: ys), ?_⟩
        apply strDataInj
        simp [joinWith, String.data_append]
    · cases xs with
      | nil => cases h2
      | cons y ys =>
        obtain ⟨p, q, hpq⟩ := ih h2
        refine ⟨x ++ sep ++ p, q, ?_⟩
        apply strDataInj
        have hd := congrArg String.data hpq
        simp only [String.data_append] at hd
        simp [joinWith, String.data_append, hd]

theorem neEmptyOfContains {t s : String} (h : strContains t s) (hs : s ≠ "") :
    t ≠ "" := by
  obtain ⟨p, q, rfl⟩ := h
  intro h0
  have hd := congrArg String.data h0
  simp only [String.data_append] at hd
  rcases List.append_eq_nil.mp hd with ⟨hd1, hd2⟩
  rcases List.append_eq_nil.mp hd1 with ⟨_, hsd⟩
  exact hs (strDataInj (by simpa using hsd))

theorem httpStartsHT {u : String} (hh : isHttpUrl u = true) :
    ∃ l : List Char, u.data = 'h' :: 't' :: l := by
  have h2 := hh
  simp only [isHttpUrl, Bool.or_eq_true, Bool.and_eq_true] at h2
  rcases h2 with ⟨h1, _⟩ | ⟨h1, _⟩
  · obtain ⟨t, ht⟩ := List.isPrefixOf_iff_prefix.mp h1
    exact ⟨'t' :: 'p' :: ':' :: '/' :: '/' :: t, ht.symm⟩
  · obtain ⟨t, ht⟩ := List.isPrefixOf_iff_prefix.mp h1
    exact ⟨'t' :: 'p' :: 's' :: ':' :: '/' :: '/' :: t, ht.symm⟩

theorem isHttpUrlNeEmpty {u : String} (hh : isHttpUrl u = true) : u ≠ "" := by
  obtain ⟨l, hl⟩ := httpStartsHT hh
  intro h0
  rw [h0] at hl
  cases hl

theorem canonicalizeUrlNeEmpty (u : String) (hu : u ≠ "") :
    canonicalizeUrl u ≠ "" := by
  by_cases hh : isHttpUrl u = true
  · obtain ⟨l, hl⟩ := httpStartsHT hh
    intro h0
    have hd := congrArg String.data h0
    simp only [canonicalizeUrl, hh, if_true, hl] at hd
    simp only [List.takeWhile_cons] at hd
    simp at hd
    obtain ⟨hd1, -⟩ := hd
    split at hd1 <;> simp at hd1
  · simp only [canonicalizeUrl, hh]
    simpa using hu

theorem jsOrNeEmpty (a b : String) (hb : b ≠ "") : jsOr a b ≠ "" := by
  by_cases ha : a = ""
  · simp [jsOr, ha, hb]
  · have hba : (a == "") = false := beq_eq_false_iff_ne.mpr ha
    simp [jsOr, hba, ha]

theorem mergeAndDedupePair (x y : Item)
    (h : canonicalizeUrl y.url = canonicalizeUrl x.url) :
    mergeAndDedupe [x, y] =
      [if mergeSignalScore y > mergeSignalScore x then y else x] := by
  by_cases hs : mergeSignalScore y > mergeSignalScore x
  · simp [mergeAndDedupe, mergeStep, mapLookup, mapSet, h, hs]
  · simp [mergeAndDedupe, mergeStep, mapLookup, mapSet, h, hs]

/-! ### Claim theorems -/

/-- C1 [corrected]: the Consolidator's merge groups raw items by canonical
URL and keeps, of two colliding items, the one with the larger signal score
`description.length + (deadline ? 30 : 0)`.  For the claim's concrete
example — a 200-character description without deadline against a
50-character description with one — the merge keeps the *200-character*
item (score 200 against 50 + 30 = 80): the 30-point deadline bonus does not
outweigh a 150-character length difference, in either collision order. -/
theorem C1_merge_richer_signal :
    (∀ x y : Item, canonicalizeUrl y.url = canonicalizeUrl x.url →
      mergeAndDedupe [x, y] =
        [if mergeSignalScore y > mergeSignalScore x then y else x]) ∧
    (∀ x y : Item, canonicalizeUrl y.url = canonicalizeUrl x.url →
      x.description.length = 200 → jsTruthy x.deadline = false →
      y.description.length = 50 → jsTruthy y.deadline = true →
      mergeAndDedupe [x, y] = [x] ∧ mergeAndDedupe [y, x] = [x]) := by
  constructor
  · exact mergeAndDedupePair
  · intro x y h hx hxd hy hyd
    have hsx : mergeSignalScore x = 200 := by simp [mergeSignalScore, hx, hxd]
    have hsy : mergeSignalScore y = 80 := by simp [mergeSignalScore, hy, hyd]
    constructor
    · rw [mergeAndDedupePair x y h]
      simp [hsx, hsy]
    · rw [mergeAndDedupePair y x h.symm]
      simp [hsx, hsy]

/-- C1 counterexample: at the claim's own example (same canonical URL, one
item with a 200-character description and no deadline, the other with a
50-character description and a deadline) the merge keeps the item *without*
the deadline, so the claimed outcome is false on the code. -/
theorem C1_counterexample :
    mergeAndDedupe [itemLongNoDeadline, itemShortWithDeadline] =
      [itemLongNoDeadline] ∧
    itemLongNoDeadline.deadline = none ∧
    itemShortWithDeadline.deadline = some "2026-06-30" := by
  refine ⟨?_, ?_, ?_⟩ <;> decide

/-- C1 witness: the amended theorem applied at two concrete colliding items
(200-character description, no deadline, against 50-character description
with deadline `2026-06-30`). -/
theorem C1_witness :
    mergeAndDedupe [itemLongW, itemShortW] = [itemLongW] ∧
    mergeAndDedupe [itemShortW, itemLongW] = [itemLongW] := by
  exact C1_merge_richer_signal.2 itemLongW itemShortW
    (by decide) (by decide) (by decide) (by decide) (by decide)

/-- C2 [code_bug evaluation]: `extractDeadline` returns an ISO string or
nothing, and on the three specified inputs the code yields
`"2026-03-03"` for `"31 February 2026"` (the `Date.UTC` rollover turns the
impossible date into March 3rd instead of rejecting it — the claimed
"no deadline" answer is violated), `"2026-03-01"` for `"2026-03-01"`, and
`"2026-03-01"` for `"deadline: 1 March 2026"`. -/
theorem C2_extractDeadline_eval :
    extractDeadline "31 February 2026" = some "2026-03-03" ∧
    extractDeadline "2026-03-01" = some "2026-03-01" ∧
    extractDeadline "deadline: 1 March 2026" = some "2026-03-01" := by
  refine ⟨?_, ?_, ?_⟩ <;> decide

/-- C3 [confirmed]: status inference.  Explicit closed language wins
outright; explicit open language wins unless a parsed deadline is already
past (which forces `closed`); with no explicit language, a parsed deadline
in the past gives `closed` and in the future gives `open`; with neither
language nor a deadline the result is `unknown`.  The deadline is compared
as the end of its day against `nowMs`. -/
theorem C3_inferStatus_spec (text : String) (d : Option String) (nowMs : Int) :
    (hasClosedLang (jsToLower text) = true →
      inferStatus text d nowMs = "closed") ∧
    (hasClosedLang (jsToLower text) = false →
      hasOpenLang (jsToLower text) = true →
      ((∃ iso t, d = some iso ∧ parseDeadlineEndMs iso = some t ∧ t < nowMs) →
        inferStatus text d nowMs = "closed") ∧
      ((∀ iso t, d = some iso → parseDeadlineEndMs iso = some t → nowMs ≤ t) →
        inferStatus text d nowMs = "open")) ∧
    (hasClosedLang (jsToLower text) = false →
      hasOpenLang (jsToLower text) = false →
      ((∃ iso t, d = some iso ∧ parseDeadlineEndMs iso = some t ∧ t < nowMs) →
        inferStatus text d nowMs = "closed") ∧
      ((∃ iso t, d = some iso ∧ parseDeadlineEndMs iso = some t ∧ nowMs < t) →
        inferStatus text d nowMs = "open") ∧
      (d = none → inferStatus text d nowMs = "unknown")) := by
  have hEmpty : parseDeadlineEndMs "" = none := by decide
  refine ⟨?_, ?_, ?_⟩
  · intro h1
    simp [inferStatus, h1]
  · intro h1 h2
    constructor
    · rintro ⟨iso, t, rfl, hp, hlt⟩
      have hne : iso ≠ "" := by
        intro h
        rw [h, hEmpty] at hp
        cases hp
      have hb : (iso == "") = false := beq_eq_false_iff_ne.mpr hne
      simp [inferStatus, h1, h2, jsTruthy, jsOrOpt, hb, hp, hlt]
    · intro hall
      cases d with
      | none => simp [inferStatus, h1, h2, jsTruthy]
      | some iso =>
        by_cases hne : iso = ""
        · subst hne
          simp [inferStatus, h1, h2, jsTruthy]
        · have hb : (iso == "") = false := beq_eq_false_iff_ne.mpr hne
          cases hp : parseDeadlineEndMs iso with
          | none => simp [inferStatus, h1, h2, jsTruthy, jsOrOpt, hb, hp]
          | some t =>
            have hge := hall iso t rfl hp
            simp [inferStatus, h1, h2, jsTruthy, jsOrOpt, hb, hp, not_lt.mpr hge]
  · intro h1 h2
    refine ⟨?_, ?_, ?_⟩
    · rintro ⟨iso, t, rfl, hp, hlt⟩
      have hne : iso ≠ "" := by
        intro h
        rw [h, hEmpty] at hp
        cases hp
      have hb : (iso == "") = false := beq_eq_false_iff_ne.mpr hne
      simp [inferStatus, h1, h2, jsTruthy, jsOrOpt, hb, hp, hlt]
    · rintro ⟨iso, t, rfl, hp, hgt⟩
      have hne : iso ≠ "" := by
        intro h
        rw [h, hEmpty] at hp
        cases hp
      have hb : (iso == "") = false := beq_eq_false_iff_ne.mpr hne
      simp [inferStatus, h1, h2, jsTruthy, jsOrOpt, hb, hp, not_lt.mpr (le_of_lt hgt)]
    · rintro rfl
      simp [inferStatus, h1, h2, jsTruthy]

/-- C3 witness: the spec's own examples.  "applications closed" with no
deadline is `closed`; "now open" with deadline 2026-01-01 seen from
2026-02-01 is `closed`; no status language with deadline 2026-12-01 seen
from 2026-02-01 is `open`; no language and no deadline is `unknown`. -/
theorem C3_witness :
    inferStatus "applications closed" none 0 = "closed" ∧
    inferStatus "now open" (some "2026-01-01") 1769904000000 = "closed" ∧
    inferStatus "no status words here" (some "2026-12-01") 1769904000000 = "open" ∧
    inferStatus "no status words here" none 0 = "unknown" := by
  refine ⟨?_, ?_, ?_, ?_⟩
  · exact (C3_inferStatus_spec "applications closed" none 0).1 (by decide)
  · exact ((C3_inferStatus_spec "now open" (some "2026-01-01")
        1769904000000).2.1 (by decide) (by decide)).1
      ⟨"2026-01-01", 1767311999000, rfl, by decide, by decide⟩
  · exact ((C3_inferStatus_spec "no status words here" (some "2026-12-01")
        1769904000000).2.2 (by decide) (by decide)).2.1
      ⟨"2026-12-01", 1796169599000, rfl, by decide, by decide⟩
  · exact ((C3_inferStatus_spec "no status words here" none 0).2.2
      (by decide) (by decide)).2.2 rfl

/-- C9 [corrected]: every field extractor returns normally on every *string*
input (including empty and arbitrary malformed text), and the deadline and
amount extractors additionally tolerate `null`; but the unguarded extractors
throw on `null` (see the counterexample), so the claim's "every input value
including null" holds only for the guarded two. -/
theorem C9_extractors_no_throw_on_text :
    (∀ v : Option String,
      (extractDeadlineJs v).isOk = true ∧ (extractAmountJs v).isOk = true) ∧
    (∀ (s : String) (d : Option String) (n : Int),
      (classifyTypeJs (some s)).isOk = true ∧
      (inferStatusJs (some s) d n).isOk = true ∧
      (inferLevelsJs (some s)).isOk = true ∧
      (inferCareerStageJs (some s)).isOk = true ∧
      (inferNationalitiesJs (some s)).isOk = true ∧
      (inferDisciplinesJs (some s)).isOk = true) := by
  constructor
  · intro v
    cases v with
    | none => exact ⟨rfl, rfl⟩
    | some t => exact ⟨rfl, rfl⟩
  · intro s d n
    exact ⟨rfl, rfl, rfl, rfl, rfl, rfl⟩

/-- C9 counterexample: `classifyType`, `inferStatus` and the eligibility
inferrers call `.toLowerCase()` on their argument without a guard, so the
`null` input the claim includes makes them throw a `TypeError` instead of
returning a no-data value. -/
theorem C9_counterexample :
    (classifyTypeJs none).isOk = false ∧
    (inferStatusJs none none 0).isOk = false ∧
    (inferLevelsJs none).isOk = false := by
  refine ⟨rfl, rfl, rfl⟩

/-- C10 [confirmed]: the allowed-host check is raw string-suffix matching:
an empty allow-list admits every non-empty host, and otherwise the check is
exactly `allowed.any (host.endsWith lowercased-entry)` — so
`notexample.com` passes against the entry `example.com` and a 200 response
for it is classified `reachable`, not `bad_host`. -/
theorem C10_host_suffix_matching (host : String) (allowed : List String) :
    (host ≠ "" → allowed = [] → hostMatchesAllowed host allowed = true) ∧
    (host ≠ "" → allowed ≠ [] →
      hostMatchesAllowed host allowed =
        allowed.any (fun entry => endsWith host (jsToLower entry))) ∧
    hostMatchesAllowed "notexample.com" ["example.com"] = true ∧
    (checkOpportunityUrl { baseItem with url := "https://notexample.com/grants" }
        exampleSource
        (.ok { status := 200, respUrl := "https://notexample.com/grants" })).status =
      "reachable" := by
  refine ⟨?_, ?_, ?_, ?_⟩
  · intro h1 h2
    subst h2
    have hb : (host == "") = false := beq_eq_false_iff_ne.mpr h1
    simp [hostMatchesAllowed, hb]
  · intro h1 h2
    have hb : (host == "") = false := beq_eq_false_iff_ne.mpr h1
    have hne : allowed.isEmpty = false := by
      cases allowed with
      | nil => exact absurd rfl h2
      | cons a t => rfl
    simp [hostMatchesAllowed, hb, hne]
  · decide
  · decide

/-- C10 witness: the general clauses applied at concrete hosts — any host
passes an empty allow-list, and the suffix-equation evaluated for
`sub.example.com` against `example.com`. -/
theorem C10_witness :
    hostMatchesAllowed "anything.net" [] = true ∧
    hostMatchesAllowed "sub.example.com" ["example.com"] =
      (["example.com"] : List String).any
        (fun entry => endsWith "sub.example.com" (jsToLower entry)) := by
  constructor
  · exact (C10_host_suffix_matching "anything.net" []).1 (by decide) rfl
  · exact (C10_host_suffix_matching "sub.example.com" ["example.com"]).2.1
      (by decide) (by decide)

/-- C4 [corrected]: the fingerprint is a pure function of exactly
`(title, url, deadline, amount, status, first 320 characters of the
description)` — items identical in those six fields always hash alike —
and, for a collision-free hash, changing any one field changes the
fingerprint *provided* the changed deadline or amount is compared through
the code's string encoding (`field || ""`), since `null` and the empty
string are indistinguishable there (see the counterexample). -/
theorem C4_fingerprint_pure_function (h : String → String)
    (hinj : Function.Injective h) (a b : Item) :
    (a.title = b.title → a.url = b.url → a.deadline = b.deadline →
      a.amount = b.amount → a.status = b.status →
      String.mk (a.description.data.take 320) = String.mk (b.description.data.take 320) →
      buildFingerprint h a = buildFingerprint h b) ∧
    (a.url = b.url → jsOrOpt a.deadline "" = jsOrOpt b.deadline "" →
      jsOrOpt a.amount "" = jsOrOpt b.amount "" → a.status = b.status →
      String.mk (a.description.data.take 320) = String.mk (b.description.data.take 320) →
      a.title ≠ b.title → buildFingerprint h a ≠ buildFingerprint h b) ∧
    (a.title = b.title → jsOrOpt a.deadline "" = jsOrOpt b.deadline "" →
      jsOrOpt a.amount "" = jsOrOpt b.amount "" → a.status = b.status →
      String.mk (a.description.data.take 320) = String.mk (b.description.data.take 320) →
      a.url ≠ b.url → buildFingerprint h a ≠ buildFingerprint h b) ∧
    (a.title = b.title → a.url = b.url →
      jsOrOpt a.amount "" = jsOrOpt b.amount "" → a.status = b.status →
      String.mk (a.description.data.take 320) = String.mk (b.description.data.take 320) →
      jsOrOpt a.deadline "" ≠ jsOrOpt b.deadline "" →
      buildFingerprint h a ≠ buildFingerprint h b) ∧
    (a.title = b.title → a.url = b.url →
      jsOrOpt a.deadline "" = jsOrOpt b.deadline "" → a.status = b.status →
      String.mk (a.description.data.take 320) = String.mk (b.description.data.take 320) →
      jsOrOpt a.amount "" ≠ jsOrOpt b.amount "" →
      buildFingerprint h a ≠ buildFingerprint h b) ∧
    (a.title = b.title → a.url = b.url →
      jsOrOpt a.deadline "" = jsOrOpt b.deadline "" →
      jsOrOpt a.amount "" = jsOrOpt b.amount "" →
      String.mk (a.description.data.take 320) = String.mk (b.description.data.take 320) →
      a.status ≠ b.status → buildFingerprint h a ≠ buildFingerprint h b) ∧
    (a.title = b.title → a.url = b.url →
      jsOrOpt a.deadline "" = jsOrOpt b.deadline "" →
      jsOrOpt a.amount "" = jsOrOpt b.amount "" → a.status = b.status →
      String.mk (a.description.data.take 320) ≠ String.mk (b.description.data.take 320) →
      buildFingerprint h a ≠ buildFingerprint h b) := by
  refine ⟨?_, ?_, ?_, ?_, ?_, ?_, ?_⟩
  · intro h1 h2 h3 h4 h5 h6
    simp only [buildFingerprint, fingerprintInput, joinWith]
    rw [h1, h2, h3, h4, h5, h6]
  · intro h2 h3 h4 h5 h6 hne heq
    have hi := hinj heq
    simp only [fingerprintInput, joinWith] at hi
    rw [h2, h3, h4, h5, h6] at hi
    exact hne (strCancelRight (strCancelRight hi))
  · intro h1 h3 h4 h5 h6 hne heq
    have hi := hinj heq
    simp only [fingerprintInput, joinWith] at hi
    rw [h1, h3, h4, h5, h6] at hi
    exact hne (strCancelRight (strCancelRight (strCancelLeft hi)))
  · intro h1 h2 h4 h5 h6 hne heq
    have hi := hinj heq
    simp only [fingerprintInput, joinWith] at hi
    rw [h1, h2, h4, h5, h6] at hi
    exact hne (strCancelRight (strCancelRight (strCancelLeft (strCancelLeft hi))))
  · intro h1 h2 h3 h5 h6 hne heq
    have hi := hinj heq
    simp only [fingerprintInput, joinWith] at hi
    rw [h1, h2, h3, h5, h6] at hi
    exact hne (strCancelRight (strCancelRight
      (strCancelLeft (strCancelLeft (strCancelLeft hi)))))
  · intro h1 h2 h3 h4 h6 hne heq
    have hi := hinj heq
    simp only [fingerprintInput, joinWith] at hi
    rw [h1, h2, h3, h4, h6] at hi
    exact hne (strCancelRight (strCancelRight
      (strCancelLeft (strCancelLeft (strCancelLeft (strCancelLeft hi))))))
  · intro h1 h2 h3 h4 h5 hne heq
    have hi := hinj heq
    simp only [fingerprintInput, joinWith] at hi
    rw [h1, h2, h3, h4, h5] at hi
    exact hne (strCancelLeft (strCancelLeft
      (strCancelLeft (strCancelLeft (strCancelLeft hi)))))

/-- C4 counterexample: changing the deadline field from `null` to the empty
string leaves the hash input — and hence the fingerprint, for every hash
function — unchanged, because the code encodes the field as
`item.deadline || ""`. -/
theorem C4_counterexample :
    fingerprintInput baseItem =
      fingerprintInput { baseItem with deadline := some "" } ∧
    ({ baseItem with deadline := some "" } : Item).deadline ≠ baseItem.deadline ∧
    buildFingerprint (fun s => s) baseItem =
      buildFingerprint (fun s => s) { baseItem with deadline := some "" } := by
  refine ⟨?_, ?_, ?_⟩ <;> decide

/-- C4 witness: with the (injective) identity hash, an item and a copy
differing only in a fingerprint-irrelevant field (`id`) hash alike, while a
copy with a different title hashes differently. -/
theorem C4_witness :
    buildFingerprint (fun s => s) baseItem =
      buildFingerprint (fun s => s) { baseItem with id := "otherid" } ∧
    buildFingerprint (fun s => s) baseItem ≠
      buildFingerprint (fun s => s) { baseItem with title := "Changed title" } := by
  constructor
  · exact (C4_fingerprint_pure_function (fun s => s) (fun x y hh => hh)
      baseItem { baseItem with id := "otherid" }).1 rfl rfl rfl rfl rfl rfl
  · exact (C4_fingerprint_pure_function (fun s => s) (fun x y hh => hh)
      baseItem { baseItem with title := "Changed title" }).2.1
      rfl rfl rfl rfl rfl (by decide)

/-- C5 [confirmed]: the per-URL check classification and the verifier's
keep/drop decision (`passesCheck` is exactly the predicate the verifier
filters on).  Non-http URLs are `invalid_url`; a disallowed original host is
`bad_host`; a network-class fetch failure is `network_error`; a non-2xx
401/403/429 from an allowed final host is `reachable_restricted` (kept); any
other non-2xx is `http_error`; a 2xx whose final host is not allowed is
`bad_host`; a 2xx at the same URL is `reachable`, after a redirect
`reachable_with_redirect` (both kept, with the item's URL rewritten to the
canonicalized final target). -/
theorem C5_url_check_taxonomy (item : Item) (source : Source)
    (response : Except String FetchMeta) :
    (isHttpUrl (canonicalizeUrl item.url) = false →
      (checkOpportunityUrl item source response).status = "invalid_url" ∧
      passesCheck (checkOpportunityUrl item source response) = false) ∧
    (isHttpUrl (canonicalizeUrl item.url) = true →
      hostMatchesAllowed (getHost (canonicalizeUrl item.url))
          (resolveAllowedHosts source) = false →
      (checkOpportunityUrl item source response).status = "bad_host" ∧
      passesCheck (checkOpportunityUrl item source response) = false) ∧
    (isHttpUrl (canonicalizeUrl item.url) = true →
      hostMatchesAllowed (getHost (canonicalizeUrl item.url))
          (resolveAllowedHosts source) = true →
      ∀ msg, response = Except.error msg → isLikelyNetworkError msg = true →
        (checkOpportunityUrl item source response).status = "network_error" ∧
        passesCheck (checkOpportunityUrl item source response) = false) ∧
    (isHttpUrl (canonicalizeUrl item.url) = true →
      hostMatchesAllowed (getHost (canonicalizeUrl item.url))
          (resolveAllowedHosts source) = true →
      ∀ m, response = Except.ok m →
        ((fetchUrlMetadata (canonicalizeUrl item.url) m).ok = false →
          ((fetchUrlMetadata (canonicalizeUrl item.url) m).status = 401 ∨
           (fetchUrlMetadata (canonicalizeUrl item.url) m).status = 403 ∨
           (fetchUrlMetadata (canonicalizeUrl item.url) m).status = 429) →
          hostMatchesAllowed
              (getHost (fetchUrlMetadata (canonicalizeUrl item.url) m).finalUrl)
              (resolveAllowedHosts source) = true →
          (checkOpportunityUrl item source response).status = "reachable_restricted" ∧
          passesCheck (checkOpportunityUrl item source response) = true) ∧
        ((fetchUrlMetadata (canonicalizeUrl item.url) m).ok = false →
          ¬(((fetchUrlMetadata (canonicalizeUrl item.url) m).status = 401 ∨
             (fetchUrlMetadata (canonicalizeUrl item.url) m).status = 403 ∨
             (fetchUrlMetadata (canonicalizeUrl item.url) m).status = 429) ∧
            hostMatchesAllowed
                (getHost (fetchUrlMetadata (canonicalizeUrl item.url) m).finalUrl)
                (resolveAllowedHosts source) = true) →
          (checkOpportunityUrl item source response).status = "http_error" ∧
          passesCheck (checkOpportunityUrl item source response) = false) ∧
        ((fetchUrlMetadata (canonicalizeUrl item.url) m).ok = true →
          hostMatchesAllowed
              (getHost (fetchUrlMetadata (canonicalizeUrl item.url) m).finalUrl)
              (resolveAllowedHosts source) = false →
          (checkOpportunityUrl item source response).status = "bad_host" ∧
          passesCheck (checkOpportunityUrl item source response) = false) ∧
        ((fetchUrlMetadata (canonicalizeUrl item.url) m).ok = true →
          hostMatchesAllowed
              (getHost (fetchUrlMetadata (canonicalizeUrl item.url) m).finalUrl)
              (resolveAllowedHosts source) = true →
          (fetchUrlMetadata (canonicalizeUrl item.url) m).redirected = false →
          (checkOpportunityUrl item source response).status = "reachable" ∧
          passesCheck (checkOpportunityUrl item source response) = true ∧
          (annotateItem item (checkOpportunityUrl item source response)).url =
            canonicalizeUrl (fetchUrlMetadata (canonicalizeUrl item.url) m).finalUrl) ∧
        ((fetchUrlMetadata (canonicalizeUrl item.url) m).ok = true →
          hostMatchesAllowed
              (getHost (fetchUrlMetadata (canonicalizeUrl item.url) m).finalUrl)
              (resolveAllowedHosts source) = true →
          (fetchUrlMetadata (canonicalizeUrl item.url) m).redirected = true →
          (checkOpportunityUrl item source response).status = "reachable_with_redirect" ∧
          passesCheck (checkOpportunityUrl item source response) = true ∧
          (annotateItem item (checkOpportunityUrl item source response)).url =
            canonicalizeUrl (fetchUrlMetadata (canonicalizeUrl item.url) m).finalUrl)) := by
  refine ⟨?_, ?_, ?_, ?_⟩
  · intro hh
    simp [checkOpportunityUrl, hh, passesCheck]
  · intro hh hb
    simp [checkOpportunityUrl, hh, hb, passesCheck]
  · intro hh hb msg hr hnet
    subst hr
    simp [checkOpportunityUrl, hh, hb, hnet, passesCheck]
  · intro hh hb m hr
    subst hr
    have hfne : (fetchUrlMetadata (canonicalizeUrl item.url) m).finalUrl ≠ "" := by
      have h1 : (fetchUrlMetadata (canonicalizeUrl item.url) m).finalUrl =
          canonicalizeUrl (jsOr m.respUrl (canonicalizeUrl item.url)) := rfl
      rw [h1]
      exact canonicalizeUrlNeEmpty _ (jsOrNeEmpty _ _ (isHttpUrlNeEmpty hh))
    have hfb : ((fetchUrlMetadata (canonicalizeUrl item.url) m).finalUrl == "") = false :=
      beq_eq_false_iff_ne.mpr hfne
    refine ⟨?_, ?_, ?_, ?_, ?_⟩
    · intro hok hst hal
      have hstb : ((fetchUrlMetadata (canonicalizeUrl item.url) m).status == 401 ||
          (fetchUrlMetadata (canonicalizeUrl item.url) m).status == 403 ||
          (fetchUrlMetadata (canonicalizeUrl item.url) m).status == 429) = true := by
        rcases hst with h | h | h <;> simp [h]
      simp [checkOpportunityUrl, hh, hb, hok, hstb, hal, passesCheck]
    · intro hok hnot
      have hstb : (((fetchUrlMetadata (canonicalizeUrl item.url) m).status == 401 ||
          (fetchUrlMetadata (canonicalizeUrl item.url) m).status == 403 ||
          (fetchUrlMetadata (canonicalizeUrl item.url) m).status == 429) &&
          hostMatchesAllowed
            (getHost (fetchUrlMetadata (canonicalizeUrl item.url) m).finalUrl)
            (resolveAllowedHosts source)) = false := by
        cases hal : hostMatchesAllowed
            (getHost (fetchUrlMetadata (canonicalizeUrl item.url) m).finalUrl)
            (resolveAllowedHosts source) with
        | false => simp [hal]
        | true =>
          have h3 : ¬((fetchUrlMetadata (canonicalizeUrl item.url) m).status = 401 ∨
              (fetchUrlMetadata (canonicalizeUrl item.url) m).status = 403 ∨
              (fetchUrlMetadata (canonicalizeUrl item.url) m).status = 429) :=
            fun hd => hnot ⟨hd, hal⟩
          push_neg at h3
          simp [beq_eq_false_iff_ne.mpr h3.1, beq_eq_false_iff_ne.mpr h3.2.1,
            beq_eq_false_iff_ne.mpr h3.2.2]
      simp [checkOpportunityUrl, hh, hb, hok, hstb, passesCheck]
    · intro hok hal
      simp [checkOpportunityUrl, hh, hb, hok, hal, passesCheck]
    · intro hok hal hred
      refine ⟨?_, ?_, ?_⟩
      · simp [checkOpportunityUrl, hh, hb, hok, hal, hred]
      · simp [checkOpportunityUrl, hh, hb, hok, hal, hred, passesCheck]
      · simp [annotateItem, checkOpportunityUrl, hh, hb, hok, hal, hred,
          jsTruthy, jsOrOpt, hfb]
    · intro hok hal hred
      refine ⟨?_, ?_, ?_⟩
      · simp [checkOpportunityUrl, hh, hb, hok, hal, hred]
      · simp [checkOpportunityUrl, hh, hb, hok, hal, hred, passesCheck]
      · simp [annotateItem, checkOpportunityUrl, hh, hb, hok, hal, hred,
          jsTruthy, jsOrOpt, hfb]

/-- C5 witness: the taxonomy applied at concrete inputs — a malformed URL,
a network failure, a 403 from the allowed host (kept as a soft pass), and a
2xx redirect (kept with the URL rewritten). -/
theorem C5_witness :
    (checkOpportunityUrl { baseItem with url := "nota-url" } exampleSource
        (Except.error "x")).status = "invalid_url" ∧
    (checkOpportunityUrl baseItem exampleSource
        (Except.error "fetch failed")).status = "network_error" ∧
    (checkOpportunityUrl baseItem exampleSource
        (Except.ok { status := 403, respUrl := "" })).status = "reachable_restricted" ∧
    passesCheck (checkOpportunityUrl baseItem exampleSource
        (Except.ok { status := 403, respUrl := "" })) = true ∧
    (checkOpportunityUrl baseItem exampleSource
        (Except.ok { status := 200, respUrl := "https://www2.example.com/final" })).status =
      "reachable_with_redirect" ∧
    (annotateItem baseItem (checkOpportunityUrl baseItem exampleSource
        (Except.ok { status := 200, respUrl := "https://www2.example.com/final" }))).url =
      canonicalizeUrl (fetchUrlMetadata (canonicalizeUrl baseItem.url)
        { status := 200, respUrl := "https://www2.example.com/final" }).finalUrl := by
  refine ⟨?_, ?_, ?_, ?_, ?_, ?_⟩
  · exact ((C5_url_check_taxonomy { baseItem with url := "nota-url" } exampleSource
      (Except.error "x")).1 (by decide)).1
  · exact ((C5_url_check_taxonomy baseItem exampleSource
      (Except.error "fetch failed")).2.2.1 (by decide) (by decide)
      "fetch failed" rfl (by decide)).1
  · exact (((C5_url_check_taxonomy baseItem exampleSource
      (Except.ok { status := 403, respUrl := "" })).2.2.2 (by decide) (by decide)
      { status := 403, respUrl := "" } rfl).1 (by decide) (by decide) (by decide)).1
  · exact (((C5_url_check_taxonomy baseItem exampleSource
      (Except.ok { status := 403, respUrl := "" })).2.2.2 (by decide) (by decide)
      { status := 403, respUrl := "" } rfl).1 (by decide) (by decide) (by decide)).2
  · exact (((C5_url_check_taxonomy baseItem exampleSource
      (Except.ok { status := 200, respUrl := "https://www2.example.com/final" })).2.2.2
      (by decide) (by decide)
      { status := 200, respUrl := "https://www2.example.com/final" } rfl).2.2.2.2
      (by decide) (by decide) (by decide)).1
  · exact (((C5_url_check_taxonomy baseItem exampleSource
      (Except.ok { status := 200, respUrl := "https://www2.example.com/final" })).2.2.2
      (by decide) (by decide)
      { status := 200, respUrl := "https://www2.example.com/final" } rfl).2.2.2.2
      (by decide) (by decide) (by decide)).2.2

/-- C6 [confirmed]: when every checked item's URL check is a network-class
error, the non-strict verifier does not reject the set — it returns
normally with an empty dropped list, passes every item through (the same
number of items comes out), and marks each checked item
`unchecked_network_unavailable` — while strict mode
(`STRICT_URL_VALIDATION`) turns the same situation into a thrown error. -/
theorem C6_network_unavailable_fallback (items : List Item)
    (sources : List Source) (responses : Nat → Except String FetchMeta)
    (maxCheckItems : Nat) (hne : items.take maxCheckItems ≠ [])
    (hall : ∀ c ∈ computeChecks (items.take maxCheckItems) sources responses,
      c.status = "network_error") :
    (∃ r, verifyOpportunityUrls items sources responses maxCheckItems false =
      Except.ok r) ∧
    (∀ r, verifyOpportunityUrls items sources responses maxCheckItems false =
        Except.ok r →
      r.droppedItems = [] ∧
      r.items.length = items.length ∧
      r.summary.networkUnavailable = true ∧
      ∀ it ∈ r.items.take (items.take maxCheckItems).length,
        ∃ c, it.urlCheck = some c ∧ c.status = "unchecked_network_unavailable") ∧
    verifyOpportunityUrls items sources responses maxCheckItems true =
      Except.error
        "URL validation failed: network unavailable and STRICT_URL_VALIDATION=true" := by
  have hlen : (computeChecks (items.take maxCheckItems) sources responses).length =
      (items.take maxCheckItems).length := by
    simp [computeChecks]
  have hcount : (computeChecks (items.take maxCheckItems) sources responses).countP
      (fun c => c.status == "network_error") =
      (items.take maxCheckItems).length := by
    rw [← hlen]
    exact List.countP_eq_length.mpr (fun c hc => by simp [hall c hc])
  have hpos : 0 < (items.take maxCheckItems).length := List.length_pos.mpr hne
  have hcond : (decide (0 < (items.take maxCheckItems).length) &&
      ((computeChecks (items.take maxCheckItems) sources responses).countP
        (fun c => c.status == "network_error") ==
        (items.take maxCheckItems).length)) = true := by
    rw [hcount]
    simp only [beq_self_eq_true, Bool.and_true]
    exact decide_eq_true hpos
  have hok : verifyOpportunityUrls items sources responses maxCheckItems false =
      Except.ok
        { items := (items.take maxCheckItems).map (markUnchecked
              "unchecked_network_unavailable"
              "Skipped strict filtering because network was unavailable during URL checks") ++
            (items.drop maxCheckItems).map (markUnchecked "unchecked_limit"
              ("Skipped URL check due to MAX_URL_CHECK_ITEMS=" ++ toString maxCheckItems)),
          droppedItems := [],
          summary :=
            { checked := (items.take maxCheckItems).length, reachable := 0,
              reachableWithRedirect := 0, reachableRestricted := 0, dropped := 0,
              networkErrors := (computeChecks (items.take maxCheckItems) sources
                responses).countP (fun c => c.status == "network_error"),
              networkUnavailable := true, strictMode := false } } := by
    simp only [verifyOpportunityUrls]
    rw [hcond]
    rfl
  refine ⟨⟨_, hok⟩, ?_, ?_⟩
  · intro r hr
    rw [hok, Except.ok.injEq] at hr
    subst hr
    refine ⟨rfl, ?_, rfl, ?_⟩
    · have hsplit := congrArg List.length (List.take_append_drop maxCheckItems items)
      simp only [List.length_append] at hsplit
      rw [List.length_append, List.length_map, List.length_map]
      exact hsplit
    · intro it hit
      rw [List.take_left' (by simp)] at hit
      obtain ⟨x, hx, rfl⟩ := List.mem_map.mp hit
      exact ⟨_, rfl, rfl⟩
  · simp only [verifyOpportunityUrls]
    rw [hcond]
    rfl

/-- C6 witness: a one-item run against an offline environment — the
non-strict verifier returns normally, the strict one throws. -/
theorem C6_witness :
    (∃ r, verifyOpportunityUrls [baseItem] [exampleSource]
      (fun _ => Except.error "fetch failed") 320 false = Except.ok r) ∧
    verifyOpportunityUrls [baseItem] [exampleSource]
      (fun _ => Except.error "fetch failed") 320 true =
      Except.error
        "URL validation failed: network unavailable and STRICT_URL_VALIDATION=true" := by
  have h := C6_network_unavailable_fallback [baseItem] [exampleSource]
    (fun _ => Except.error "fetch failed") 320 (by decide) (by decide)
  exact ⟨h.1, h.2.2⟩

theorem mapLookupNoneKeyNotMem {m : List (String × Item)} {k : String}
    (h : mapLookup m k = none) : ∀ p ∈ m, p.1 ≠ k := by
  induction m with
  | nil => intro p hp; cases hp
  | cons q t ih =>
    obtain ⟨k2, v2⟩ := q
    intro p hp
    rw [mapLookup] at h
    cases hkb : (k == k2) with
    | true => rw [hkb] at h; cases h
    | false =>
      rw [hkb] at h
      simp only [Bool.false_eq_true, if_false] at h
      rcases List.mem_cons.mp hp with rfl | hp2
      · exact fun he => (beq_eq_false_iff_ne.mp hkb) he.symm
      · exact ih h p hp2

theorem mapSetMem {m : List (String × Item)} {k : String} {v : Item} :
    ∀ p ∈ mapSet m k v, p ∈ m ∨ p = (k, v) := by
  induction m with
  | nil =>
    intro p hp
    simp only [mapSet, List.mem_singleton] at hp
    exact Or.inr hp
  | cons q t ih =>
    obtain ⟨k2, v2⟩ := q
    intro p hp
    rw [mapSet] at hp
    cases hkb : (k == k2) with
    | true =>
      rw [hkb] at hp
      simp only [if_true] at hp
      rcases List.mem_cons.mp hp with rfl | hp2
      · exact Or.inr (by rw [eq_of_beq hkb])
      · exact Or.inl (List.mem_cons_of_mem _ hp2)
    | false =>
      rw [hkb] at hp
      simp only [Bool.false_eq_true, if_false] at hp
      rcases List.mem_cons.mp hp with rfl | hp2
      · exact Or.inl (List.mem_cons_self _ _)
      · rcases ih p hp2 with h2 | h2
        · exact Or.inl (List.mem_cons_of_mem _ h2)
        · exact Or.inr h2

theorem keysMapSetSome {m : List (String × Item)} {k : String} {v w : Item}
    (h : mapLookup m k = some w) :
    (mapSet m k v).map Prod.fst = m.map Prod.fst := by
  induction m with
  | nil => cases h
  | cons q t ih =>
    obtain ⟨k2, v2⟩ := q
    rw [mapLookup] at h
    rw [mapSet]
    cases hkb : (k == k2) with
    | true => simp
    | false =>
      rw [hkb] at h
      simp only [Bool.false_eq_true, if_false] at h ⊢
      simp [ih h]

theorem keysMapSetNone {m : List (String × Item)} {k : String} {v : Item}
    (h : mapLookup m k = none) :
    (mapSet m k v).map Prod.fst = m.map Prod.fst ++ [k] := by
  induction m with
  | nil => rfl
  | cons q t ih =>
    obtain ⟨k2, v2⟩ := q
    rw [mapLookup] at h
    rw [mapSet]
    cases hkb : (k == k2) with
    | true => rw [hkb] at h; cases h
    | false =>
      rw [hkb] at h
      simp only [Bool.false_eq_true, if_false] at h ⊢
      simp [ih h]

theorem mergeStepInv (it : Item) {m : List (String × Item)}
    (h1 : (m.map Prod.fst).Pairwise (· ≠ ·))
    (h2 : ∀ p ∈ m, p.1 = canonicalizeUrl p.2.url) :
    ((mergeStep m it).map Prod.fst).Pairwise (· ≠ ·) ∧
    (∀ p ∈ mergeStep m it, p.1 = canonicalizeUrl p.2.url) := by
  cases hl : mapLookup m (canonicalizeUrl it.url) with
  | none =>
    simp only [mergeStep, hl]
    constructor
    · rw [keysMapSetNone hl, List.pairwise_append]
      refine ⟨h1, List.pairwise_singleton _ _, ?_⟩
      intro a ha b hb
      simp only [List.mem_singleton] at hb
      subst hb
      obtain ⟨p, hp, rfl⟩ := List.mem_map.mp ha
      exact mapLookupNoneKeyNotMem hl p hp
    · intro p hp
      rcases mapSetMem p hp with h | h
      · exact h2 p h
      · rw [h]
  | some w =>
    simp only [mergeStep, hl]
    by_cases hsc : mergeSignalScore it > mergeSignalScore w
    · rw [if_pos hsc]
      constructor
      · rw [keysMapSetSome hl]
        exact h1
      · intro p hp
        rcases mapSetMem p hp with h | h
        · exact h2 p h
        · rw [h]
    · rw [if_neg hsc]
      exact ⟨h1, h2⟩

theorem mergeStepValues {m : List (String × Item)} {it : Item} :
    ∀ p ∈ mergeStep m it, p ∈ m ∨ p.2 = it := by
  cases hl : mapLookup m (canonicalizeUrl it.url) with
  | none =>
    simp only [mergeStep, hl]
    intro p hp
    rcases mapSetMem p hp with h | h
    · exact Or.inl h
    · exact Or.inr (by rw [h])
  | some w =>
    simp only [mergeStep, hl]
    by_cases hsc : mergeSignalScore it > mergeSignalScore w
    · rw [if_pos hsc]
      intro p hp
      rcases mapSetMem p hp with h | h
      · exact Or.inl h
      · exact Or.inr (by rw [h])
    · rw [if_neg hsc]
      exact fun p hp => Or.inl hp

theorem mergeFoldInv (P : Item → Prop) (l : List Item) :
    ∀ m : List (String × Item),
      (m.map Prod.fst).Pairwise (· ≠ ·) →
      (∀ p ∈ m, p.1 = canonicalizeUrl p.2.url) →
      (∀ p ∈ m, P p.2) → (∀ x ∈ l, P x) →
      ((l.foldl mergeStep m).map Prod.fst).Pairwise (· ≠ ·) ∧
      (∀ p ∈ l.foldl mergeStep m, p.1 = canonicalizeUrl p.2.url) ∧
      (∀ p ∈ l.foldl mergeStep m, P p.2) := by
  induction l with
  | nil => intro m h1 h2 h3 _; exact ⟨h1, h2, h3⟩
  | cons it t ih =>
    intro m h1 h2 h3 h4
    simp only [List.foldl_cons]
    have hstep := mergeStepInv it h1 h2
    apply ih
    · exact hstep.1
    · exact hstep.2
    · intro p hp
      rcases mergeStepValues p hp with h | h
      · exact h3 p h
      · exact h ▸ h4 it (List.mem_cons_self _ _)
    · intro x hx
      exact h4 x (List.mem_cons_of_mem _ hx)

theorem mergeAndDedupeUrlsPairwise (items : List Item) :
    (mergeAndDedupe items).Pairwise
      (fun a b => canonicalizeUrl a.url ≠ canonicalizeUrl b.url) ∧
    ∀ x ∈ mergeAndDedupe items, x ∈ items := by
  obtain ⟨h1, h2, h3⟩ := mergeFoldInv (fun x => x ∈ items) items []
    (by simp) (by simp) (by simp) (fun x hx => hx)
  constructor
  · rw [mergeAndDedupe, List.pairwise_map]
    rw [List.pairwise_map] at h1
    refine List.Pairwise.imp_of_mem ?_ h1
    intro p q hp hq hne
    rw [← h2 p hp, ← h2 q hq]
    exact hne
  · intro x hx
    rw [mergeAndDedupe] at hx
    obtain ⟨p, hp, rfl⟩ := List.mem_map.mp hx
    exact h3 p hp

theorem insertByLePerm {α : Type} (le : α → α → Bool) (a : α) (l : List α) :
    (insertByLe le a l).Perm (a :: l) := by
  induction l with
  | nil => exact List.Perm.refl _
  | cons b t ih =>
    rw [insertByLe]
    split
    · exact List.Perm.refl _
    · exact (ih.cons b).trans (List.Perm.swap a b t)

theorem sortByLePerm {α : Type} (le : α → α → Bool) (l : List α) :
    (sortByLe le l).Perm l := by
  induction l with
  | nil => exact List.Perm.refl _
  | cons a t ih =>
    rw [sortByLe]
    exact (insertByLePerm le a (sortByLe le t)).trans (ih.cons a)

/-- C7 [confirmed]: after the post-verification re-merge, cap, fingerprint
recomputation, sort and diff-flagging, no two items of the final output
share a canonical URL (unconditionally), and no two share an `id` provided
the id assignment separates items with distinct canonical URLs — which is
the collision-freeness modelling assumption for the SHA-1 ids derived from
`(sourceId, url, title)`. -/
theorem C7_final_output_unique (sha1 : String → String)
    (previousMap : List (String × Item)) (maxTotalItems : Nat)
    (verifiedItems : List Item)
    (hid : ∀ a ∈ verifiedItems, ∀ b ∈ verifiedItems, a.id = b.id →
      canonicalizeUrl a.url = canonicalizeUrl b.url) :
    (finalizeRun sha1 previousMap maxTotalItems verifiedItems).Pairwise
      (fun a b => a.id ≠ b.id) ∧
    (finalizeRun sha1 previousMap maxTotalItems verifiedItems).Pairwise
      (fun a b => canonicalizeUrl a.url ≠ canonicalizeUrl b.url) := by
  obtain ⟨hurl, hmem⟩ := mergeAndDedupeUrlsPairwise verifiedItems
  have hded : ((mergeAndDedupe verifiedItems).take maxTotalItems).Pairwise
      (fun a b => canonicalizeUrl a.url ≠ canonicalizeUrl b.url) :=
    List.Pairwise.sublist (List.take_sublist _ _) hurl
  have hdedid : ((mergeAndDedupe verifiedItems).take maxTotalItems).Pairwise
      (fun a b => a.id ≠ b.id) := by
    refine List.Pairwise.imp_of_mem ?_ hded
    intro a b ha hb hne heq
    exact hne (hid a (hmem a ((List.take_sublist _ _).subset ha))
      b (hmem b ((List.take_sublist _ _).subset hb)) heq)
  constructor
  · simp only [finalizeRun, sortItems]
    rw [List.pairwise_map]
    refine (List.Perm.pairwise_iff (fun hne => hne.symm)
      (sortByLePerm itemLe _)).mpr ?_
    rw [List.pairwise_map]
    exact hdedid
  · simp only [finalizeRun, sortItems]
    rw [List.pairwise_map]
    refine (List.Perm.pairwise_iff (fun hne => hne.symm)
      (sortByLePerm itemLe _)).mpr ?_
    rw [List.pairwise_map]
    exact hded

/-- C7 witness: the uniqueness invariant instantiated on a concrete
two-item verified set with distinct ids and URLs. -/
theorem C7_witness :
    (finalizeRun (fun s => s) [] 320 [baseItem, itemOther]).Pairwise
      (fun a b => a.id ≠ b.id) ∧
    (finalizeRun (fun s => s) [] 320 [baseItem, itemOther]).Pairwise
      (fun a b => canonicalizeUrl a.url ≠ canonicalizeUrl b.url) :=
  C7_final_output_unique (fun s => s) [] 320 [baseItem, itemOther] (by decide)

theorem sortByLeLength {α : Type} (le : α → α → Bool) (l : List α) :
    (sortByLe le l).length = l.length :=
  (sortByLePerm le l).length_eq

theorem closingPredPointwise (nowMs : Int) (it : Item) :
    ((decide (0 ≤ daysUntil (jsOrOpt it.deadline "") nowMs) &&
      decide (daysUntil (jsOrOpt it.deadline "") nowMs ≤ 14)) &&
     (jsTruthy it.deadline && (it.status == "open"))) =
    (it.status == "open" && it.deadline.isSome &&
     (decide (0 ≤ daysUntil (jsOrOpt it.deadline "") nowMs) &&
      decide (daysUntil (jsOrOpt it.deadline "") nowMs ≤ 14))) := by
  cases hd : it.deadline with
  | none => simp [jsTruthy, hd]
  | some s =>
    by_cases hne : s = ""
    · subst hne
      have h9 : daysUntil (jsOrOpt (some "") "") nowMs = 9999 := by
        simp [jsOrOpt, daysUntil, show parseDeadlineEndMs "" = none from by decide]
      simp [jsTruthy, hd, h9]
    · have hb : (s == "") = false := beq_eq_false_iff_ne.mpr hne
      have e1 : jsTruthy (some s) = true := by simp [jsTruthy, hb]
      have e2 : (some s : Option String).isSome = true := rfl
      rw [e1, e2]
      cases hst : (it.status == "open") <;>
        cases h0 : decide (0 ≤ daysUntil (jsOrOpt it.deadline "") nowMs) <;>
          cases h14 : decide (daysUntil (jsOrOpt it.deadline "") nowMs ≤ 14) <;>
            simp

/-- C8 [confirmed]: with zero new and zero updated items the digest is still
produced, with `newItems = 0`, `updatedItems = 0`, a non-empty markdown body
containing the explicit no-new-items placeholder line, and `closingSoon`
counting exactly the open items with a (truthy) deadline whose ceiling-day
distance from now to the end of the deadline day lies in [0, 14]. -/
theorem C8_digest_zero_new (items : List Item)
    (previousMap : List (String × Item)) (nowMs : Int)
    (hprev : ∀ it ∈ items, ∃ prev, mapLookup previousMap it.id = some prev ∧
      prev.fingerprint = it.fingerprint) :
    (createDigest items previousMap nowMs).stats.newItems = 0 ∧
    (createDigest items previousMap nowMs).stats.updatedItems = 0 ∧
    (createDigest items previousMap nowMs).stats.closingSoon =
      items.countP (fun it => it.status == "open" && it.deadline.isSome &&
        (decide (0 ≤ daysUntil (jsOrOpt it.deadline "") nowMs) &&
         decide (daysUntil (jsOrOpt it.deadline "") nowMs ≤ 14))) ∧
    strContains (createDigest items previousMap nowMs).markdown digestNoNewLine ∧
    (createDigest items previousMap nowMs).markdown ≠ "" := by
  have hnew : items.filter (fun it => (mapLookup previousMap it.id).isNone) = [] := by
    rw [List.filter_eq_nil_iff]
    intro it hit
    obtain ⟨prev, hp, _⟩ := hprev it hit
    simp [hp]
  have hupd : items.filter (fun it =>
      match mapLookup previousMap it.id with
      | some prev => !(prev.fingerprint == it.fingerprint)
      | none => false) = [] := by
    rw [List.filter_eq_nil_iff]
    intro it hit
    obtain ⟨prev, hp, hfp⟩ := hprev it hit
    simp [hp, hfp]
  have hCS : (sortByLe (fun a b => decide (a.2 ≤ b.2))
      (((items.filter (fun it => jsTruthy it.deadline && it.status == "open")).map
          (fun it => (it, daysUntil (jsOrOpt it.deadline "") nowMs))).filter
        (fun p => decide (0 ≤ p.2) && decide (p.2 ≤ 14)))).length =
      items.countP (fun it => it.status == "open" && it.deadline.isSome &&
        (decide (0 ≤ daysUntil (jsOrOpt it.deadline "") nowMs) &&
         decide (daysUntil (jsOrOpt it.deadline "") nowMs ≤ 14))) := by
    rw [sortByLeLength]
    rw [← List.countP_eq_length_filter]
    rw [List.countP_map]
    rw [List.countP_filter]
    refine List.countP_congr ?_
    intro it hit
    simp only [Function.comp_apply]
    rw [closingPredPointwise]
  have hcontains : strContains (createDigest items previousMap nowMs).markdown
      digestNoNewLine := by
    simp only [createDigest, hnew, List.length_nil]
    apply strContainsOfMemJoin
    simp
  refine ⟨?_, ?_, ?_, hcontains, ?_⟩
  · simp [createDigest, hnew]
  · simp [createDigest, hupd]
  · simp only [createDigest]
    exact hCS
  · exact neEmptyOfContains hcontains (by decide)

/-- C8 witness: a one-item run whose item is unchanged from the previous
snapshot and closes nine days after "now" (2026-02-01): zero new, zero
updated, one closing-soon item, and the placeholder-bearing markdown. -/
theorem C8_witness :
    (createDigest [itemClosingSoon] [("id0", itemClosingSoon)]
      1769904000000).stats.newItems = 0 ∧
    (createDigest [itemClosingSoon] [("id0", itemClosingSoon)]
      1769904000000).stats.updatedItems = 0 ∧
    (createDigest [itemClosingSoon] [("id0", itemClosingSoon)]
      1769904000000).stats.closingSoon =
      [itemClosingSoon].countP (fun it => it.status == "open" &&
        it.deadline.isSome &&
        (decide (0 ≤ daysUntil (jsOrOpt it.deadline "") 1769904000000) &&
         decide (daysUntil (jsOrOpt it.deadline "") 1769904000000 ≤ 14))) ∧
    strContains (createDigest [itemClosingSoon] [("id0", itemClosingSoon)]
      1769904000000).markdown digestNoNewLine ∧
    (createDigest [itemClosingSoon] [("id0", itemClosingSoon)]
      1769904000000).markdown ≠ "" := by
  refine C8_digest_zero_new [itemClosingSoon] [("id0", itemClosingSoon)]
    1769904000000 ?_
  intro it hit
  rw [List.mem_singleton] at hit
  subst hit
  exact ⟨itemClosingSoon, by decide, rfl⟩

end GrantHunter
